import Mathlib

/-!
Verification development for the Ravencoin Electrum transaction codec
(`electrum/transaction.py`).  The Python module is shallowly embedded:
byte strings (and the hex strings the source concatenates, which denote
byte strings one-to-one) are modelled as `List Nat`, stateful methods as
explicit state passing, and raising code as `Except`-valued functions.
Python exceptions are collapsed to the `PyErr` categories the claims
distinguish.  External collaborator modules (`ravencoin`, `constants`,
`assets`, `util`) are not part of the analysed source; the few utilities
the embedded functions call are modelled from the specification and each
such definition carries a doc comment starting with `Modelled from the
spec:`.
-/

set_option maxRecDepth 1000000

namespace ElectrumRvn

/-! ### Byte-level primitives (stream codec utilities) -/

/-- Little-endian encoding of a natural number on `w` bytes
(`int.to_bytes(w, "little")`; exact for `n < 256 ^ w`). -/
def natLE : Nat → Nat → List Nat
  | 0, _ => []
  | w + 1, n => n % 256 :: natLE w (n / 256)

/-- Modelled from the spec: `int_to_hex(i, w)` writes a (possibly negative)
integer in two's complement, little-endian, on `w` bytes. -/
def intToLE (w : Nat) (i : Int) : List Nat :=
  natLE w ((i % ((256 : Int) ^ w)).toNat)

/-- Compact-size varint encoding (`var_int` / `write_compact_size`):
values below 253 in one byte, then 253+u16, 254+u32, 255+u64. -/
def varInt (n : Nat) : List Nat :=
  if n < 253 then [n]
  else if n < 2 ^ 16 then 253 :: natLE 2 n
  else if n < 2 ^ 32 then 254 :: natLE 4 n
  else 255 :: natLE 8 n

/-- Python `bytes` comparison `a <= b`: lexicographic, with a strict
proper leading fragment comparing smaller. -/
def leBytes : List Nat → List Nat → Bool
  | x :: xs, y :: ys => if x < y then true else if y < x then false else leBytes xs ys
  | [], _ => true
  | _, [] => false

/-! ### SHA-256 (the `sha256d` utility from `crypto`)

The hash primitive is an external utility for the analysed module; it is
embedded in full so that concrete txids evaluate to their real values. -/

/-- Reduction of a natural number to a 32-bit word. -/
def w32 (x : Nat) : Nat := x % 4294967296

/-- Rotation of a 32-bit word to the right by `n` positions. -/
def rotr (x n : Nat) : Nat := w32 ((x >>> n) ||| (x <<< (32 - n)))

/-- Round-constant table of SHA-256 (FIPS 180-4), written in decimal. -/
def shaK : List Nat := [
  1116352408, 1899447441, 3049323471, 3921009573,
  961987163, 1508970993, 2453635748, 2870763221,
  3624381080, 310598401, 607225278, 1426881987,
  1925078388, 2162078206, 2614888103, 3248222580,
  3835390401, 4022224774, 264347078, 604807628,
  770255983, 1249150122, 1555081692, 1996064986,
  2554220882, 2821834349, 2952996808, 3210313671,
  3336571891, 3584528711, 113926993, 338241895,
  666307205, 773529912, 1294757372, 1396182291,
  1695183700, 1986661051, 2177026350, 2456956037,
  2730485921, 2820302411, 3259730800, 3345764771,
  3516065817, 3600352804, 4094571909, 275423344,
  430227734, 506948616, 659060556, 883997877,
  958139571, 1322822218, 1537002063, 1747873779,
  1955562222, 2024104815, 2227730452, 2361852424,
  2428436474, 2756734187, 3204031479, 3329325298]

/-- Padding step of SHA-256: append `0x80`, zeros, and the 64-bit
big-endian bit length. -/
def shaPad (msg : List Nat) : List Nat :=
  let bitlen := 8 * msg.length
  let padlen := (55 + 64 - msg.length % 64) % 64
  msg ++ [0x80] ++ List.replicate padlen 0 ++
    [bitlen / 2 ^ 56 % 256, bitlen / 2 ^ 48 % 256, bitlen / 2 ^ 40 % 256, bitlen / 2 ^ 32 % 256,
     bitlen / 2 ^ 24 % 256, bitlen / 2 ^ 16 % 256, bitlen / 2 ^ 8 % 256, bitlen % 256]

/-- Grouping of a byte stream into big-endian 32-bit words. -/
def toWords : List Nat → List Nat
  | a :: b :: c :: d :: rest => (a <<< 24 + b <<< 16 + c <<< 8 + d) :: toWords rest
  | _ => []

/-- Message-schedule extension: `n` additional words `w16..`. -/
def shaSched (ws : List Nat) : Nat → List Nat
  | 0 => ws
  | n + 1 =>
    let ws' := shaSched ws n
    let t := ws'.length
    let g := fun j => ws'.getD j 0
    let w15 := g (t - 15); let w2 := g (t - 2); let w16 := g (t - 16); let w7 := g (t - 7)
    let s0 := w32 (Nat.xor (Nat.xor (rotr w15 7) (rotr w15 18)) (w15 >>> 3))
    let s1 := w32 (Nat.xor (Nat.xor (rotr w2 17) (rotr w2 19)) (w2 >>> 10))
    ws' ++ [w32 (w16 + s0 + w7 + s1)]

/-- Single round of the SHA-256 compression function. -/
def shaStep (h : List Nat) (kw : Nat × Nat) : List Nat :=
  match h with
  | [a, b, c, d, e, f, g, hh] =>
    let S1 := Nat.xor (Nat.xor (rotr e 6) (rotr e 11)) (rotr e 25)
    let ch := Nat.xor (Nat.land e f) (Nat.land (4294967295 - e) g)
    let t1 := w32 (hh + S1 + ch + kw.1 + kw.2)
    let S0 := Nat.xor (Nat.xor (rotr a 2) (rotr a 13)) (rotr a 22)
    let mj := Nat.xor (Nat.xor (Nat.land a b) (Nat.land a c)) (Nat.land b c)
    let t2 := w32 (S0 + mj)
    [w32 (t1 + t2), a, b, c, w32 (d + t1), e, f, g]
  | _ => h

/-- Compression of one 512-bit block into the running state. -/
def shaBlock (h : List Nat) (ws : List Nat) : List Nat :=
  let wall := shaSched ws 48
  let h' := (shaK.zip wall).foldl (fun acc p => shaStep acc p) h
  (h.zip h').map (fun p => w32 (p.1 + p.2))

/-- Fold of the compression function over the first `n` blocks. -/
def shaBlocksGo : Nat → List Nat → List Nat → List Nat
  | 0, h, _ => h
  | n + 1, h, l => shaBlocksGo n (shaBlock h (toWords (l.take 64))) (l.drop 64)

/-- Initial chaining state of SHA-256, in decimal. -/
def shaH0 : List Nat :=
  [1779033703, 3144134277, 1013904242, 2773480762,
   1359893119, 2600822924, 528734635, 1541459225]

/-- SHA-256 of a byte string. -/
def sha256 (msg : List Nat) : List Nat :=
  let p := shaPad msg
  (shaBlocksGo (p.length / 64) shaH0 p).flatMap
    (fun w => [w / 2 ^ 24 % 256, w / 2 ^ 16 % 256, w / 2 ^ 8 % 256, w % 256])

/-- Double SHA-256 (`sha256d`). -/
def sha256d (msg : List Nat) : List Nat := sha256 (sha256 msg)

/-- Modelled from the spec: `hash_160` (RIPEMD-160 of SHA-256) is an external
hash utility; it is modelled as the first 20 bytes of SHA-256.  No claim
depends on the concrete digest values of this primitive. -/
def hash160 (b : List Nat) : List Nat := (sha256 b).take 20

/-! ### Exception categories -/

/-- Categories of Python exceptions raised by the embedded code:
`MalformedBitcoinScript`, `UnknownTxinType`, `NotImplementedError`,
`AssertionError`, `PSBTInputConsistencyFailure`, `IndexError`,
`AttributeError` (attribute access on `None`), and plain `Exception`. -/
inductive PyErr where
  | malformedScript
  | unknownTxinType
  | notImplemented
  | assertionFailure
  | psbtConsistency
  | indexError
  | attributeError
  | generic
deriving DecidableEq, Repr

/-- Decidable equality of `Except` results (needed to evaluate the
embedded functions on concrete inputs). -/
instance {ε α : Type} [DecidableEq ε] [DecidableEq α] : DecidableEq (Except ε α) := fun a b =>
  match a, b with
  | .ok x, .ok y =>
    if h : x = y then .isTrue (by rw [h]) else .isFalse (by intro c; cases c; exact h rfl)
  | .error x, .error y =>
    if h : x = y then .isTrue (by rw [h]) else .isFalse (by intro c; cases c; exact h rfl)
  | .ok _, .error _ => .isFalse (by intro c; cases c)
  | .error _, .ok _ => .isFalse (by intro c; cases c)

/-! ### Script walker (`script_GetOp`)

The walker yields `(opcode, optional push payload, next cursor)` triples.
Opcode values `1..75` push that many bytes; `OP_PUSHDATA1/2/4`
(`76/77/78`) carry a 1/2/4 byte little-endian length prefix. -/

/-- Worker for `script_GetOp`: `fuel` bounds the number of iterations
(each step consumes at least the opcode byte, so the list length
suffices), `i` is the absolute cursor of the source loop. -/
def getOpsGo : Nat → Nat → List Nat → Except PyErr (List (Nat × Option (List Nat) × Nat))
  | 0, _, _ => .ok []
  | _ + 1, _, [] => .ok []
  | fuel + 1, i, opcode :: rest =>
    if opcode ≤ 78 then
      match
        (if opcode = 76 then
          match rest with
          | [] => none
          | n :: _ => some (n, 1)
        else if opcode = 77 then
          match rest with
          | a :: b :: _ => some (a + 256 * b, 2)
          | _ => none
        else if opcode = 78 then
          match rest with
          | a :: b :: c :: d :: _ => some (a + 256 * b + 65536 * c + 16777216 * d, 4)
          | _ => none
        else some (opcode, 0)) with
      | none => .error .malformedScript
      | some (nSize, skip) =>
        let after := rest.drop skip
        let i' := i + 1 + skip + nSize
        match getOpsGo fuel i' (after.drop nSize) with
        | .error e => .error e
        | .ok tl => .ok ((opcode, some (after.take nSize), i') :: tl)
    else
      match getOpsGo fuel (i + 1) rest with
      | .error e => .error e
      | .ok tl => .ok ((opcode, none, i + 1) :: tl)

/-- Embedding of iterating the generator `script_GetOp` to exhaustion:
either the list of all yielded triples, or the `MalformedBitcoinScript`
error raised mid-iteration. -/
def script_GetOp (bs : List Nat) : Except PyErr (List (Nat × Option (List Nat) × Nat)) :=
  getOpsGo bs.length 0 bs

/-- Specification-side predicate: the walk reaches an `OP_PUSHDATA1/2/4`
opcode whose 1/2/4-byte length prefix extends past the end of the
script.  (Stated independently of the walker; used to characterise
exactly when `script_GetOp` raises.) -/
def lenPfxTruncated : Nat → List Nat → Bool
  | 0, _ => false
  | _ + 1, [] => false
  | fuel + 1, opcode :: rest =>
    if opcode ≤ 78 then
      if opcode = 76 then
        match rest with
        | [] => true
        | n :: tl => lenPfxTruncated fuel (tl.drop n)
      else if opcode = 77 then
        match rest with
        | a :: b :: tl => lenPfxTruncated fuel (tl.drop (a + 256 * b))
        | _ => true
      else if opcode = 78 then
        match rest with
        | a :: b :: c :: d :: tl =>
            lenPfxTruncated fuel (tl.drop (a + 256 * b + 65536 * c + 16777216 * d))
        | _ => true
      else lenPfxTruncated fuel (rest.drop opcode)
    else lenPfxTruncated fuel rest

/-- Top-level form of `lenPfxTruncated` on a whole script. -/
def scriptHasTruncatedLenByte (bs : List Nat) : Bool := lenPfxTruncated bs.length bs

/-! ### Template matcher (`match_script_against_template`) -/

/-- Items of a script template: a fixed opcode, a push-length wildcard
(`OPPushDataGeneric`), or an opcode wildcard (`OPGeneric`).  As in the
source, both wildcards test the first component of the decoded triple. -/
inductive TemplateItem where
  | op (n : Nat)
  | pushData (pred : Nat → Bool)
  | opGeneric (pred : Nat → Bool)

/-- Comparison of a single template item with a decoded opcode
(`match_script_against_template` loop body). -/
def matchItem : TemplateItem → Nat → Bool
  | .op n, opcode => n == opcode
  | .pushData p, opcode => p opcode
  | .opGeneric p, opcode => p opcode

/-- Element-wise comparison of a decoded script against a template,
including the length equality check of the source. -/
def matchItems : List (Nat × Option (List Nat) × Nat) → List TemplateItem → Bool
  | [], [] => true
  | s :: ss, t :: ts => matchItem t s.1 && matchItems ss ts
  | _, _ => false

/-- Modelled from the spec: the numeric value of the chain-specific
`OP_RVN_ASSET` opcode (0xc0, from the external `opcodes` table). -/
def OP_RVN_ASSET : Nat := 192

/-- Truncation of a decoded script at the first `OP_RVN_ASSET` opcode
(the `op_rvn_asset` index loop of `match_script_against_template`). -/
def chopAtRvnAsset (d : List (Nat × Option (List Nat) × Nat)) :
    List (Nat × Option (List Nat) × Nat) :=
  d.take (d.findIdx (fun t => t.1 == OP_RVN_ASSET))

/-- Embedding of `match_script_against_template` applied to a raw byte
script: decode (malformed scripts match nothing), chop the asset suffix,
then compare item-wise. -/
def matchScriptBytes (bs : List Nat) (t : List TemplateItem) : Bool :=
  match script_GetOp bs with
  | .error _ => false
  | .ok d => matchItems (chopAtRvnAsset d) t

/-- Embedding of `match_script_against_template` applied to an already
decoded script (the other accepted argument type of the source). -/
def matchScriptDecoded (d : List (Nat × Option (List Nat) × Nat))
    (t : List TemplateItem) : Bool :=
  matchItems (chopAtRvnAsset d) t

/-- Template `SCRIPTPUBKEY_TEMPLATE_P2PK`. -/
def TEMPLATE_P2PK : List TemplateItem :=
  [.pushData (fun x => x == 33 || x == 65), .op 172]

/-- Template `SCRIPTPUBKEY_TEMPLATE_P2PKH`. -/
def TEMPLATE_P2PKH : List TemplateItem :=
  [.op 118, .op 169, .pushData (fun x => x == 20), .op 136, .op 172]

/-- Template `SCRIPTPUBKEY_TEMPLATE_P2SH`. -/
def TEMPLATE_P2SH : List TemplateItem :=
  [.op 169, .pushData (fun x => x == 20), .op 135]

/-- Template `SCRIPTPUBKEY_TEMPLATE_WITNESS_V0`. -/
def TEMPLATE_WITNESS_V0 : List TemplateItem :=
  [.op 0, .pushData (fun x => x == 20 || x == 32)]

/-- Template `SCRIPTPUBKEY_TEMPLATE_P2WPKH`. -/
def TEMPLATE_P2WPKH : List TemplateItem :=
  [.op 0, .pushData (fun x => x == 20)]

/-- Template `SCRIPTPUBKEY_TEMPLATE_P2WSH`. -/
def TEMPLATE_P2WSH : List TemplateItem :=
  [.op 0, .pushData (fun x => x == 32)]

/-! ### Addresses

Base58 and bech32 address encoding lives in the external `ravencoin`
module.  The encoders are injective on their payloads, so an address is
modelled as the tagged payload it encodes. -/

/-- Modelled from the spec: an address string is one of base58 P2PKH,
base58 P2SH, or bech32 segwit; modelled as the hash/program it encodes
(the external encoders are injective). -/
inductive Address where
  | p2pkh (h : List Nat)
  | p2sh (h : List Nat)
  | segwit (witver : Nat) (prog : List Nat)
deriving DecidableEq, Repr

/-- Modelled from the spec: `ravencoin.is_segwit_address` recognises
bech32 addresses. -/
def isSegwitAddress : Address → Bool
  | .segwit _ _ => true
  | _ => false

/-- Modelled from the spec: `ravencoin.address_to_script` produces the
standard locking script for an address. -/
def addressToScript : Address → List Nat
  | .p2pkh h => [118, 169, 20] ++ h ++ [136, 172]
  | .p2sh h => [169, 20] ++ h ++ [135]
  | .segwit v prog => [if v = 0 then 0 else 80 + v, prog.length] ++ prog

/-- Worker matching the witness v1..v16 templates of
`get_address_from_output_script` for `witver` descending from 16. -/
def segwitVMatch (d : List (Nat × Option (List Nat) × Nat)) : Nat → Option Address
  | 0 => none
  | k + 1 =>
    let witver := 16 - k
    if matchScriptDecoded d [.op (80 + witver), .pushData (fun x => 2 ≤ x && x ≤ 40)] then
      some (.segwit witver ((d.getD 1 (0, none, 0)).2.1.getD []))
    else segwitVMatch d k

/-- Embedding of `get_address_from_output_script`: decode, drop the
asset suffix, then try the templates in source order.  The external
encoders are the `Address` constructors. -/
def getAddressFromOutputScript (bs : List Nat) : Option Address :=
  match script_GetOp bs with
  | .error _ => none
  | .ok raw =>
    let d := raw.takeWhile (fun t => !(t.1 == OP_RVN_ASSET))
    if matchScriptDecoded d TEMPLATE_P2PK then
      some (.p2pkh (hash160 ((d.getD 0 (0, none, 0)).2.1.getD [])))
    else if matchScriptDecoded d TEMPLATE_P2PKH then
      some (.p2pkh ((d.getD 2 (0, none, 0)).2.1.getD []))
    else if matchScriptDecoded d TEMPLATE_P2SH then
      some (.p2sh ((d.getD 1 (0, none, 0)).2.1.getD []))
    else if matchScriptDecoded d TEMPLATE_WITNESS_V0 then
      some (.segwit 0 ((d.getD 1 (0, none, 0)).2.1.getD []))
    else segwitVMatch d 16

/-! ### Data model: outpoints, outputs, inputs -/

/-- Embedding of `TxOutpoint`: a 32-byte identifier in display order and
an output index. -/
structure TxOutpoint where
  txid : List Nat
  out_idx : Nat
deriving DecidableEq, Repr

/-- Serialization of an outpoint (`TxOutpoint.serialize_to_network`):
reversed identifier then 4-byte little-endian index. -/
def TxOutpoint.serNet (p : TxOutpoint) : List Nat :=
  p.txid.reverse ++ natLE 4 p.out_idx

/-- Test of `TxOutpoint.is_coinbase`: a zeroed identifier. -/
def TxOutpoint.isCoinbase (p : TxOutpoint) : Bool :=
  p.txid == List.replicate 32 0

/-- Embedding of `TxOutput`: locking script, value in satoshis, and
optional asset name.  The `max!` dynamic-spend string sentinel for
`value` is out of scope (per the spec, serialization requires the
integer arm); all claims concern integer-valued outputs. -/
structure TxOutput where
  scriptpubkey : List Nat
  value : Nat
  asset : Option String
deriving DecidableEq, Repr

/-- Embedding of `TxOutput.__eq__`: compares the script and the value. -/
def txOutputEq (a b : TxOutput) : Bool :=
  a.scriptpubkey == b.scriptpubkey && a.value == b.value

/-- Serialization of an output (`TxOutput.serialize_to_network`): eight
zero bytes when an asset is attached, otherwise the 8-byte little-endian
value; then the compact-length-prefixed script. -/
def TxOutput.serNet (o : TxOutput) : List Nat :=
  (if o.asset.isSome then List.replicate 8 0 else natLE 8 o.value) ++
    varInt o.scriptpubkey.length ++ o.scriptpubkey

/-- Address of an output (`TxOutput.address` property). -/
def TxOutput.address (o : TxOutput) : Option Address :=
  getAddressFromOutputScript o.scriptpubkey

/-- Embedding of `TxInput` (the base class). -/
structure TxInput where
  prevout : TxOutpoint
  script_sig : Option (List Nat)
  nsequence : Nat
  witness : Option (List Nat)
  is_coinbase_output : Bool
  sighash : Option Nat
deriving DecidableEq, Repr

/-- Test of `TxInput.is_coinbase_input`. -/
def TxInput.isCoinbaseInput (i : TxInput) : Bool := i.prevout.isCoinbase

/-- Embedding of the base `TxInput.is_segwit`: a witness other than
`None`, `b''` and `b'\x00'` means segwit. -/
def TxInput.isSegwitBase (i : TxInput) : Bool :=
  match i.witness with
  | none => false
  | some w => !(w == [0] || w == [])

/-- Serialization of one input (`Transaction.serialize_input`): outpoint,
compact-length-prefixed script, nSequence. -/
def serializeInput (i : TxInput) (script : List Nat) : List Nat :=
  i.prevout.serNet ++ varInt script.length ++ script ++ natLE 4 i.nsequence

/-! ### Script construction utilities (external `ravencoin` helpers) -/

/-- Modelled from the spec: minimal data push used by `push_script`
(direct length byte below 76, otherwise `OP_PUSHDATA1/2/4`). -/
def pushBytes (b : List Nat) : List Nat :=
  if b.length < 76 then b.length :: b
  else if b.length < 256 then 76 :: b.length :: b
  else if b.length < 65536 then 77 :: natLE 2 b.length ++ b
  else 78 :: natLE 4 b.length ++ b

/-- Items accepted by the external `construct_script` helper: small
integers (opcode-like) or byte strings to push. -/
inductive ScriptItem where
  | int (n : Nat)
  | bytes (b : List Nat)

/-- Modelled from the spec: `ravencoin.construct_script` concatenates
items, writing small numbers via the corresponding small-number opcode
(`OP_0`, `OP_1..OP_16`) and byte strings as minimal pushes. -/
def constructScript (items : List ScriptItem) : List Nat :=
  items.flatMap fun it =>
    match it with
    | .int 0 => [0]
    | .int n => if n ≤ 16 then [80 + n] else pushBytes [n]
    | .bytes b => pushBytes b

/-- Embedding of `multisig_script`: `m-of-n` with the source's assertion
`1 <= m <= n <= 15`. -/
def multisigScript (pubkeys : List (List Nat)) (m : Nat) : Except PyErr (List Nat) :=
  if 1 ≤ m ∧ m ≤ pubkeys.length ∧ pubkeys.length ≤ 15 then
    .ok (constructScript ([.int m] ++ pubkeys.map .bytes ++ [.int pubkeys.length, .int 174]))
  else .error .assertionFailure

/-- Modelled from the spec: `ravencoin.pubkeyhash_to_p2pkh_script`. -/
def pubkeyhashToP2pkhScript (pkh : List Nat) : List Nat :=
  [118, 169, 20] ++ pkh ++ [136, 172]

/-- Modelled from the spec: `ravencoin.public_key_to_p2pk_script`. -/
def publicKeyToP2pkScript (pk : List Nat) : List Nat :=
  pushBytes pk ++ [172]

/-- Modelled from the spec: `ravencoin.p2wsh_nested_script` builds the
`OP_0 <sha256(witness script)>` redeem script. -/
def p2wshNestedScript (wscript : List Nat) : List Nat :=
  [0, 32] ++ sha256 wscript

/-- Modelled from the spec: `ravencoin.script_to_p2wsh` encodes the v0
witness address of a script. -/
def scriptToP2wsh (wscript : List Nat) : Address :=
  .segwit 0 (sha256 wscript)

/-- Modelled from the spec: `ravencoin.construct_witness` writes the
number of stack items and each item length-prefixed (integer item `0`
becomes an empty push). -/
def constructWitness (items : List (List Nat)) : List Nat :=
  varInt items.length ++ items.flatMap (fun b => varInt b.length ++ b)

/-- Modelled from the spec: `ravencoin.is_segwit_script_type`. -/
def isSegwitScriptType (t : String) : Bool :=
  t == "p2wpkh" || t == "p2wpkh-p2sh" || t == "p2wsh" || t == "p2wsh-p2sh"

/-- Modelled from the spec: `assets.guess_asset_script_for_vin` augments
a locking script with the asset-transfer suffix for the input's asset
value; the suffix layout is opaque to the claims, only the augmentation
itself matters. -/
def guessAssetScriptForVin (script : List Nat) (asset : String) (amt : Nat) : List Nat :=
  script ++ [OP_RVN_ASSET] ++
    pushBytes ([114, 118, 110, 116, asset.length] ++ (asset.toList.map Char.toNat) ++ natLE 8 amt) ++
    [117]

/-! ### Plain transactions (`Transaction`) -/

/-- Embedding of `Transaction` as an in-memory record (version, locktime,
inputs, outputs; `for_swap` is the class attribute, `False` unless set). -/
structure Transaction where
  version : Int
  locktime : Nat
  inputs : List TxInput
  outputs : List TxOutput
  for_swap : Bool := false
deriving DecidableEq, Repr

/-- Embedding of the base-class part of `Transaction.input_script` (with
`estimate_size=False`): an explicit script-sig, an empty script for a
coinbase input, and otherwise the failing `isinstance` assertion for a
bare `TxInput`. -/
def inputScriptPlain (i : TxInput) : Except PyErr (List Nat) :=
  match i.script_sig with
  | some s => .ok s
  | none => if i.isCoinbaseInput then .ok [] else .error .assertionFailure

/-- Witness serialization for a bare `TxInput`
(`Transaction.serialize_witness`, `estimate_size=False`). -/
def serializeWitnessPlain (i : TxInput) : Except PyErr (List Nat) :=
  match i.witness with
  | some w => .ok w
  | none => if i.isCoinbaseInput then .ok [] else .error .assertionFailure

/-- Embedding of `Transaction.serialize_to_network` for a plain
transaction (`estimate_size=False`): legacy layout, or the marker/flag
segwit layout when signatures are included, legacy is not forced, and
some input carries a witness. -/
def Transaction.serializeToNetwork (tx : Transaction)
    (includeSigs forceLegacy : Bool) : Except PyErr (List Nat) := do
  let scripts ← tx.inputs.mapM (fun i => if includeSigs then inputScriptPlain i else .ok [])
  let txins := varInt tx.inputs.length ++
    ((tx.inputs.zip scripts).flatMap fun p => serializeInput p.1 p.2)
  let txouts := varInt tx.outputs.length ++ tx.outputs.flatMap TxOutput.serNet
  let useSegwit := tx.inputs.any TxInput.isSegwitBase
  if includeSigs && !forceLegacy && useSegwit then
    let wit ← tx.inputs.mapM serializeWitnessPlain
    .ok (intToLE 4 tx.version ++ [0, 1] ++ txins ++ txouts ++ wit.flatMap id ++ natLE 4 tx.locktime)
  else
    .ok (intToLE 4 tx.version ++ txins ++ txouts ++ natLE 4 tx.locktime)

/-- Embedding of the base `Transaction.is_complete`: always true. -/
def Transaction.isComplete (_tx : Transaction) : Bool := true

/-- Embedding of `Transaction.txid` for a plain transaction: `None` when
neither complete nor all-segwit, `None` when script construction fails
with `UnknownTxinType`, otherwise the byte-reversed double SHA-256 of
the forced-legacy serialization.  (The serialized-form cache is not
modelled; the function is pure.) -/
def Transaction.txid (tx : Transaction) : Except PyErr (Option (List Nat)) :=
  let allSegwit := tx.inputs.all TxInput.isSegwitBase
  if !allSegwit && !tx.isComplete then .ok none
  else
    match tx.serializeToNetwork true true with
    | .error .unknownTxinType => .ok none
    | .error e => .error e
    | .ok s => .ok (some (sha256d s).reverse)

/-! ### PSBT inputs (`PartialTxInput`) -/

/-- Embedding of `util.RavenValue`: a plain satoshi amount together with
per-asset amounts. -/
structure RavenValue where
  rvn : Nat
  assets : List (String × Nat)
deriving DecidableEq, Repr

/-- Python `dict.update` on an association list: existing keys keep
their position and receive the other map's value, new keys are appended
in the other map's order. -/
def updMap {K V : Type} [DecidableEq K] (a b : List (K × V)) : List (K × V) :=
  a.map (fun kv => (kv.1, ((b.find? (fun x => x.1 = kv.1)).map Prod.snd).getD kv.2)) ++
    b.filter (fun kv => (a.find? (fun x => x.1 = kv.1)).isNone)

/-- Embedding of `PartialTxInput`: the base `TxInput` fields plus the
PSBT signing metadata.  Maps are association lists; `_utxo` holds a
plain `Transaction` (a complete PSBT is converted on assignment).  The
spend/mine-height metadata fields, unused by the claims' methods, are
omitted. -/
structure PartialTxInput where
  prevout : TxOutpoint
  script_sig : Option (List Nat) := none
  nsequence : Nat := 4294967294
  witness : Option (List Nat) := none
  is_coinbase_output : Bool := false
  sighash : Option Nat := none
  utxo : Option Transaction := none
  witness_utxo : Option TxOutput := none
  part_sigs : List (List Nat × List Nat) := []
  bip32_paths : List (List Nat × (List Nat × List Nat)) := []
  redeem_script : Option (List Nat) := none
  witness_script : Option (List Nat) := none
  unknownKvs : List (List Nat × List Nat) := []
  script_type : String := "unknown"
  num_sig : Nat := 0
  pubkeys : List (List Nat) := []
  trusted_value_sats : Option RavenValue := none
  trusted_address : Option Address := none
  is_p2sh_segwit_cached : Option Bool := none
  is_native_segwit_cached : Option Bool := none
  witness_sizehint : Option Nat := none
deriving DecidableEq, Repr

namespace PartialTxInput

/-- Projection to the base `TxInput` fields (the inherited part). -/
def base (i : PartialTxInput) : TxInput :=
  ⟨i.prevout, i.script_sig, i.nsequence, i.witness, i.is_coinbase_output, i.sighash⟩

/-- Embedding of `PartialTxInput.value_sats`: trusted value, else the
referenced output of the stored previous transaction, else the witness
UTXO.  An out-of-range output index is the source's `IndexError`. -/
def valueSats (i : PartialTxInput) : Except PyErr (Option RavenValue) :=
  match i.trusted_value_sats with
  | some v => .ok (some v)
  | none =>
    match i.utxo with
    | some u =>
      match u.outputs[i.prevout.out_idx]? with
      | none => .error .indexError
      | some o =>
        match o.asset with
        | some a => .ok (some ⟨0, [(a, o.value)]⟩)
        | none => .ok (some ⟨o.value, []⟩)
    | none =>
      match i.witness_utxo with
      | some o =>
        match o.asset with
        | some a => .ok (some ⟨0, [(a, o.value)]⟩)
        | none => .ok (some ⟨o.value, []⟩)
      | none => .ok none

/-- Embedding of the `PartialTxInput.scriptpubkey` property.  With a
trusted address the source evaluates `self.value_sats().assets` first,
which is an `AttributeError` when no value is known. -/
def scriptpubkey (i : PartialTxInput) : Except PyErr (Option (List Nat)) :=
  match i.trusted_address with
  | some a =>
    match i.valueSats with
    | .error e => .error e
    | .ok none => .error .attributeError
    | .ok (some _) => .ok (some (addressToScript a))
  | none =>
    match i.utxo with
    | some u =>
      match u.outputs[i.prevout.out_idx]? with
      | none => .error .indexError
      | some o => .ok (some o.scriptpubkey)
    | none =>
      match i.witness_utxo with
      | some o => .ok (some o.scriptpubkey)
      | none => .ok none

/-- Embedding of the `PartialTxInput.address` property. -/
def address (i : PartialTxInput) : Except PyErr (Option Address) :=
  match i.trusted_address with
  | some a => .ok (some a)
  | none => do
    match (← i.scriptpubkey) with
    | some spk => .ok (getAddressFromOutputScript spk)
    | none => .ok none

/-- Embedding of `PartialTxInput.is_native_segwit` (the memoized value is
the `is_native_segwit_cached` field; when absent it is derived from the
address as in the source). -/
def isNativeSegwit (i : PartialTxInput) : Except PyErr (Option Bool) :=
  match i.is_native_segwit_cached with
  | some b => .ok (some b)
  | none => do
    match (← i.address) with
    | some a => .ok (some (isSegwitAddress a))
    | none => .ok none

/-- Embedding of `PartialTxInput.is_p2sh_segwit`. -/
def isP2shSegwit (i : PartialTxInput) : Except PyErr (Option Bool) :=
  match i.is_p2sh_segwit_cached with
  | some b => .ok (some b)
  | none => do
    match (← i.address), i.redeem_script with
    | some a, some r =>
      if a ≠ .p2sh (hash160 r) then .ok (some false)
      else
        let dec := (script_GetOp r).toOption
        let m0 := match dec with
          | none => false
          | some d => matchScriptDecoded d TEMPLATE_WITNESS_V0
        let mv := match dec with
          | none => false
          | some d => (List.range 16).any fun k =>
              matchScriptDecoded d [.op (80 + (k + 1)), .pushData (fun x => 2 ≤ x && x ≤ 40)]
        .ok (some (m0 || mv))
    | _, _ => .ok none

/-- Embedding of the overriding `PartialTxInput.is_segwit` (with
`guess_for_address=False`, the only mode the claims' call sites use). -/
def isSegwit (i : PartialTxInput) : Except PyErr Bool :=
  if i.base.isSegwitBase then .ok true
  else do
    let n ← i.isNativeSegwit
    let p ← i.isP2shSegwit
    if n = some true ∨ p = some true then .ok true
    else if n = some false ∧ p = some false then .ok false
    else if i.witness_script.isSome then .ok true
    else .ok (isSegwitScriptType i.script_type)

/-- Embedding of `PartialTxInput.is_complete`. -/
def isComplete (i : PartialTxInput) : Except PyErr Bool :=
  if i.script_sig.isSome ∧ i.witness.isSome then .ok true
  else if i.base.isCoinbaseInput then .ok true
  else do
    let sw ← i.isSegwit
    if i.script_sig.isSome ∧ !sw then .ok true
    else
      let s := i.part_sigs.length
      if i.script_type ∈ ["p2pk", "p2pkh", "p2wpkh", "p2wpkh-p2sh"] then .ok (decide (s ≥ 1))
      else if i.script_type ∈ ["p2sh", "p2wsh", "p2wsh-p2sh"] then .ok (decide (s ≥ i.num_sig))
      else .ok false

end PartialTxInput

/-- Embedding of `Transaction.get_siglist` (`estimate_size=False`): the
hex pubkeys and, per pubkey, the stored partial signature or an empty
string; for a complete input the empty entries are dropped. -/
def getSiglist (i : PartialTxInput) : Except PyErr (List (List Nat) × List (List Nat)) :=
  if i.base.isCoinbaseInput then .ok ([], [])
  else do
    let sigs := i.pubkeys.map fun pk =>
      ((i.part_sigs.find? (fun kv => kv.1 = pk)).map Prod.snd).getD []
    let c ← i.isComplete
    .ok (i.pubkeys, if c then sigs.filter (fun s => s ≠ []) else sigs)

/-- Embedding of `Transaction.input_script` for a `PartialTxInput`
(`estimate_size=False`). -/
def partialInputScript (i : PartialTxInput) : Except PyErr (List Nat) :=
  match i.script_sig with
  | some s => .ok s
  | none =>
    if i.base.isCoinbaseInput then .ok []
    else do
      let p ← i.isP2shSegwit
      match p, i.redeem_script with
      | some true, some r => .ok (constructScript [.bytes r])
      | _, _ =>
        let n ← i.isNativeSegwit
        if n = some true then .ok []
        else do
          let (pks, sigs) ← getSiglist i
          if i.script_type = "p2pk" then
            match sigs[0]? with
            | none => .error .indexError
            | some s0 => .ok (constructScript [.bytes s0])
          else if i.script_type = "p2sh" then do
            let rs ← multisigScript pks i.num_sig
            .ok (constructScript ([.int 0] ++ sigs.map .bytes ++ [.bytes rs]))
          else if i.script_type = "p2pkh" then
            match sigs[0]?, pks[0]? with
            | some s0, some pk0 => .ok (constructScript [.bytes s0, .bytes pk0])
            | _, _ => .error .indexError
          else if i.script_type = "p2wpkh" ∨ i.script_type = "p2wsh" then .ok []
          else if i.script_type = "p2wpkh-p2sh" ∨ i.script_type = "p2wsh-p2sh" then
            .error .notImplemented
          else .error .unknownTxinType

/-- Embedding of `Transaction.serialize_witness` for a `PartialTxInput`
(`estimate_size=False`). -/
def partialSerializeWitness (i : PartialTxInput) : Except PyErr (List Nat) :=
  match i.witness with
  | some w => .ok w
  | none =>
    if i.base.isCoinbaseInput then .ok []
    else do
      let sw ← i.isSegwit
      if !sw then .ok (constructWitness [])
      else do
        let (pks, sigs) ← getSiglist i
        if i.script_type = "p2wpkh" ∨ i.script_type = "p2wpkh-p2sh" then
          match sigs[0]?, pks[0]? with
          | some s0, some pk0 => .ok (constructWitness [s0, pk0])
          | _, _ => .error .indexError
        else if i.script_type = "p2wsh" ∨ i.script_type = "p2wsh-p2sh" then do
          let ws ← multisigScript pks i.num_sig
          .ok (constructWitness ([[]] ++ sigs ++ [ws]))
        else if i.script_type ∈ ["p2pk", "p2pkh", "p2sh"] then .ok (constructWitness [])
        else .error .unknownTxinType

namespace PartialTxInput

/-- Embedding of `PartialTxInput.validate_data` (`for_signing=False`;
the `for_signing` segwit-amount rule is disabled in the source).
Returning an error models the method raising. -/
def validateData (i : PartialTxInput) : Except PyErr Unit := do
  (match i.utxo with
   | some u => do
     let t ← u.txid
     if t ≠ some i.prevout.txid then .error .psbtConsistency
     else
       match i.witness_utxo with
       | some w =>
         match u.outputs[i.prevout.out_idx]? with
         | none => .error .indexError
         | some o => if !txOutputEq o w then .error .psbtConsistency else .ok ()
       | none => .ok ()
   | none => .ok ())
  (match i.redeem_script with
   | some r => do
     match (← i.address) with
     | some a => if a ≠ .p2sh (hash160 r) then .error .psbtConsistency else .ok ()
     | none => .ok ()
   | none => .ok ())
  (match i.witness_script with
   | some ws =>
     match i.redeem_script with
     | some r => if r ≠ p2wshNestedScript ws then .error .psbtConsistency else .ok ()
     | none => do
       match (← i.address) with
       | some a => if a ≠ scriptToP2wsh ws then .error .psbtConsistency else .ok ()
       | none => .ok ()
   | none => .ok ())

/-- Embedding of `PartialTxInput.ensure_there_is_only_one_utxo`: when
both UTXO forms are present the witness UTXO is dropped (the full
previous transaction is preferred). -/
def ensureOneUtxo (i : PartialTxInput) : PartialTxInput :=
  if i.utxo.isSome ∧ i.witness_utxo.isSome then { i with witness_utxo := none } else i

/-- Embedding of the `witness_utxo` property setter: assign, validate
(which may raise with the assignment already in place), then drop a
duplicate UTXO.  The first component is the exception raised, if any;
the second is the object state afterwards. -/
def witnessUtxoSet (i : PartialTxInput) (w : Option TxOutput) :
    Option PyErr × PartialTxInput :=
  let i' := { i with witness_utxo := w }
  match i'.validateData with
  | .error e => (some e, i')
  | .ok _ => (none, i'.ensureOneUtxo)

/-- Embedding of `PartialTxInput.finalize`: clear the BIP-174 fields if
final scripts exist, otherwise build them when the input is complete. -/
def finalizeTxin (i : PartialTxInput) : Except PyErr PartialTxInput :=
  let clear := fun (j : PartialTxInput) =>
    { j with part_sigs := [], bip32_paths := [], redeem_script := none, witness_script := none }
  if i.script_sig.isSome ∧ i.witness.isSome then .ok (clear i)
  else do
    let c ← i.isComplete
    if c then do
      let s ← partialInputScript i
      let w ← partialSerializeWitness i
      .ok (clear { i with script_sig := some s, witness := some w })
    else .ok i

end PartialTxInput

/-! ### PSBT outputs and partial transactions -/

/-- Embedding of `PartialTxOutput`: the base `TxOutput` fields in `core`
plus the PSBT metadata. -/
structure PartialTxOutput where
  core : TxOutput
  redeem_script : Option (List Nat) := none
  witness_script : Option (List Nat) := none
  bip32_paths : List (List Nat × (List Nat × List Nat)) := []
  unknownKvs : List (List Nat × List Nat) := []
  script_type : String := "unknown"
  num_sig : Nat := 0
  pubkeys : List (List Nat) := []
  is_mine : Bool := false
  is_change : Bool := false
deriving DecidableEq, Repr

/-- Embedding of `PartialTxOutput.combine_with_other_txout`: asserts the
scripts agree, then last-write-wins merging of the metadata. -/
def combineTxout (s o : PartialTxOutput) : Except PyErr PartialTxOutput :=
  if s.core.scriptpubkey ≠ o.core.scriptpubkey then .error .assertionFailure
  else .ok { s with
    redeem_script := if o.redeem_script.isSome then o.redeem_script else s.redeem_script,
    witness_script := if o.witness_script.isSome then o.witness_script else s.witness_script,
    bip32_paths := updMap s.bip32_paths o.bip32_paths,
    unknownKvs := updMap s.unknownKvs o.unknownKvs }

/-- Embedding of `PartialTransaction`: the transaction core plus the
global PSBT maps.  The BIP32 xpub keys are the serialized nodes
(opaque strings); the per-outpoint locking-script overrides are keyed by
the outpoint (`prevout.to_str()` is injective on outpoints); the wallet
back-reference is absent (`_wallet = None`), matching every claim. -/
structure PartialTransaction where
  version : Int := 2
  locktime : Nat := 0
  inputs : List PartialTxInput := []
  outputs : List PartialTxOutput := []
  for_swap : Bool := false
  xpubs : List (String × (List Nat × List Nat)) := []
  unknownKvs : List (List Nat × List Nat) := []
  prevout_overrides : List (TxOutpoint × List Nat) := []
deriving DecidableEq, Repr

namespace PartialTransaction

/-- Embedding of `PartialTransaction.is_complete`: every input complete. -/
def isComplete (tx : PartialTransaction) : Except PyErr Bool := do
  let cs ← tx.inputs.mapM PartialTxInput.isComplete
  .ok (cs.all id)

/-- Embedding of `Transaction.serialize_to_network` for a
`PartialTransaction` (`estimate_size=False`).  With
`include_sigs=False` the script-sig fields are left empty and the
legacy layout is always used, exactly as in the source (note that the
source still evaluates `is_segwit` first). -/
def serializeToNetwork (tx : PartialTransaction)
    (includeSigs forceLegacy : Bool) : Except PyErr (List Nat) := do
  let scripts ← tx.inputs.mapM
    (fun i => if includeSigs then partialInputScript i else .ok [])
  let txins := varInt tx.inputs.length ++
    ((tx.inputs.zip scripts).flatMap fun p => serializeInput p.1.base p.2)
  let txouts := varInt tx.outputs.length ++ tx.outputs.flatMap (fun o => o.core.serNet)
  let sws ← tx.inputs.mapM PartialTxInput.isSegwit
  let useSegwit := sws.any id
  if includeSigs && !forceLegacy && useSegwit then
    let wit ← tx.inputs.mapM partialSerializeWitness
    .ok (intToLE 4 tx.version ++ [0, 1] ++ txins ++ txouts ++ wit.flatMap id ++ natLE 4 tx.locktime)
  else
    .ok (intToLE 4 tx.version ++ txins ++ txouts ++ natLE 4 tx.locktime)

/-- Embedding of `Transaction.txid` for a `PartialTransaction`. -/
def txid (tx : PartialTransaction) : Except PyErr (Option (List Nat)) := do
  let sws ← tx.inputs.mapM PartialTxInput.isSegwit
  let comp ← tx.isComplete
  if !sws.all id && !comp then .ok none
  else
    match tx.serializeToNetwork true true with
    | .error .unknownTxinType => .ok none
    | .error e => .error e
    | .ok s => .ok (some (sha256d s).reverse)

/-- Projection of a finalizable PSBT to the plain network transaction it
serializes to (`tx_from_any(str(tx))` on a complete PSBT: finalize, then
legacy/segwit network round-trip, here built structurally). -/
def toPlainTx (tx : PartialTransaction) : Except PyErr Transaction := do
  let fins ← tx.inputs.mapM PartialTxInput.finalizeTxin
  let ins ← fins.mapM fun i => do
    let s ← partialInputScript i
    .ok { prevout := i.prevout, script_sig := some s, nsequence := i.nsequence,
          witness := i.witness, is_coinbase_output := false,
          sighash := i.sighash : TxInput }
  .ok { version := tx.version, locktime := tx.locktime, inputs := ins,
        outputs := tx.outputs.map PartialTxOutput.core, for_swap := tx.for_swap }

end PartialTransaction

/-- Argument type of the `utxo` property setter: a plain transaction or
a PSBT (the setter converts a complete PSBT into a plain transaction). -/
def UtxoArg := Sum Transaction PartialTransaction

namespace PartialTxInput

/-- Embedding of the `utxo` property setter.  `None` returns at once; a
transaction is round-tripped through `tx_from_any(str(tx))` (modelled as
the identity on plain transactions, and on PSBTs as completeness-test
plus conversion — the round-trip property of the codec, spec section 8);
an incomplete transaction is silently ignored; otherwise assign, then
validate (which may raise with the assignment already in place), then
drop a duplicate UTXO.  The first component is the exception raised, if
any; the second is the object state afterwards. -/
def utxoSet (i : PartialTxInput) (arg : Option UtxoArg) :
    Option PyErr × PartialTxInput :=
  let assign := fun (t : Transaction) =>
    let i' := { i with utxo := some t }
    match i'.validateData with
    | .error e => (some e, i')
    | .ok _ => (none, i'.ensureOneUtxo)
  match arg with
  | none => (none, i)
  | some (.inl t) => assign t
  | some (.inr p) =>
    match p.isComplete with
    | .error e => (some e, i)
    | .ok false => (none, i)
    | .ok true =>
      match p.toPlainTx with
      | .error e => (some e, i)
      | .ok t => assign t

/-- Embedding of `PartialTxInput.combine_with_other_txin` (the other
input of a PSBT pair, hence a `PartialTxInput`): last-write-wins field
merges, the two UTXO assignments through the property setters, the
duplicate-UTXO drop, and the final `finalize` attempt. -/
def combineTxin (s o : PartialTxInput) : Except PyErr PartialTxInput := do
  if s.prevout ≠ o.prevout then .error .assertionFailure
  else
    let s1 := { s with
      script_sig := if o.script_sig.isSome then o.script_sig else s.script_sig,
      witness := if o.witness.isSome then o.witness else s.witness }
    let s2res :=
      if o.witness_utxo.isSome then s1.witnessUtxoSet o.witness_utxo else (none, s1)
    match s2res with
    | (some e, _) => .error e
    | (none, s2) =>
      let s3res :=
        if o.utxo.isSome then s2.utxoSet (o.utxo.map .inl) else (none, s2)
      match s3res with
      | (some e, _) => .error e
      | (none, s3) =>
        let s4 := { s3 with
          part_sigs := updMap s3.part_sigs o.part_sigs,
          sighash := if o.sighash.isSome then o.sighash else s3.sighash,
          bip32_paths := updMap s3.bip32_paths o.bip32_paths,
          redeem_script := if o.redeem_script.isSome then o.redeem_script else s3.redeem_script,
          witness_script := if o.witness_script.isSome then o.witness_script else s3.witness_script,
          unknownKvs := updMap s3.unknownKvs o.unknownKvs }
        (s4.ensureOneUtxo).finalizeTxin

end PartialTxInput

/-! ### PSBT input-section serialization -/

/-- Key-value record framing of the PSBT writer (`create_psbt_writer`):
compact size of the full key (key type varint plus key data), the full
key, compact size of the value, the value. -/
def psbtKv (kt : Nat) (val : List Nat) (key : List Nat := []) : List Nat :=
  let fullKey := varInt kt ++ key
  varInt fullKey.length ++ fullKey ++ varInt val.length ++ val

/-- Sorting of an association list by key bytes (`sorted(d.items())`;
keys are unique in a Python dict, so the key order decides). -/
def sortKvs {V : Type} (l : List (List Nat × V)) : List (List Nat × V) :=
  List.insertionSort (fun a b => leBytes a.1 b.1 = true) l

/-- Embedding of `PartialTxInput.serialize_psbt_section_kvs`: the method
first mutates the input through `ensure_there_is_only_one_utxo` and then
emits the known fields in fixed order (multi-entry maps sorted by key).
The first component is the state afterwards, the second the bytes
written or the exception raised while serializing the non-witness UTXO. -/
def serializePsbtInputSection (i0 : PartialTxInput) :
    PartialTxInput × Except PyErr (List Nat) :=
  let i := i0.ensureOneUtxo
  let bytes : Except PyErr (List Nat) := do
    let wu := match i.witness_utxo with
      | some w => psbtKv 1 w.serNet
      | none => []
    let nwu ← match i.utxo with
      | some u => do
        let s ← u.serializeToNetwork true false
        pure (psbtKv 0 s)
      | none => pure []
    let sigs := (sortKvs i.part_sigs).flatMap fun kv => psbtKv 2 kv.2 kv.1
    let sh := match i.sighash with
      | some s => psbtKv 3 (natLE 4 s)
      | none => []
    let rs := match i.redeem_script with
      | some r => psbtKv 4 r
      | none => []
    let ws := match i.witness_script with
      | some w => psbtKv 5 w
      | none => []
    let b32 := (sortKvs i.bip32_paths).flatMap fun kv =>
      psbtKv 6 (kv.2.1 ++ kv.2.2.flatMap (natLE 4)) kv.1
    let fsig := match i.script_sig with
      | some s => psbtKv 7 s
      | none => []
    let fwit := match i.witness with
      | some w => psbtKv 8 w
      | none => []
    let unk := (sortKvs i.unknownKvs).flatMap fun kv =>
      varInt kv.1.length ++ kv.1 ++ varInt kv.2.length ++ kv.2
    pure (wu ++ nwu ++ sigs ++ sh ++ rs ++ ws ++ b32 ++ fsig ++ fwit ++ unk)
  (i, bytes)

/-! ### Signature pre-image construction -/

/-- Membership of a sighash byte in the `SIGHASH` enumeration. -/
def sighashValid (s : Nat) : Bool :=
  s == 1 || s == 2 || s == 3 || s == 129 || s == 130 || s == 131

namespace PartialTransaction

/-- Embedding of `Transaction.get_preimage_script` (no wallet, with the
transaction's per-outpoint overrides): witness script (rejected), p2sh
redeem script, or the standard locking script of the script type, with
the asset suffix appended for asset-valued inputs. -/
def getPreimageScript (tx : PartialTransaction) (txin : PartialTxInput) :
    Except PyErr (List Nat) := do
  match txin.witness_script with
  | some ws => do
    let ops ← script_GetOp ws
    if ops.any (fun t => t.1 = 171) then .error .generic
    else .error .notImplemented
  | none => do
    let sw ← txin.isSegwit
    match (if !sw then txin.redeem_script else none) with
    | some r => do
      let ops ← script_GetOp r
      if ops.any (fun t => t.1 = 171) then .error .generic
      else .ok r
    | none => do
      let script ←
        if txin.script_type ∈ ["p2sh", "p2wsh", "p2wsh-p2sh"] then
          multisigScript txin.pubkeys txin.num_sig
        else if txin.script_type ∈ ["p2pkh", "p2wpkh", "p2wpkh-p2sh"] then
          match txin.pubkeys[0]? with
          | none => .error .indexError
          | some pk => .ok (pubkeyhashToP2pkhScript (hash160 pk))
        else if txin.script_type = "p2pk" then
          match txin.pubkeys[0]? with
          | none => .error .indexError
          | some pk => .ok (publicKeyToP2pkScript pk)
        else .error .unknownTxinType
      let v ← txin.valueSats
      let script ←
        match v with
        | none => .error .attributeError
        | some rv =>
          match rv.assets with
          | [] => pure script
          | (a, amt) :: _ => pure (guessAssetScriptForVin script a amt)
      let script :=
        if tx.prevout_overrides ≠ [] then
          ((tx.prevout_overrides.find? (fun kv => kv.1 = txin.prevout)).map Prod.snd).getD script
        else script
      .ok script

/-- Serialization of a blanked output of the legacy `SIGHASH_SINGLE`
path: empty script, value `2^64 - 1`, no asset. -/
def blankedOutputSer : List Nat := natLE 8 (2 ^ 64 - 1) ++ varInt 0

/-- Input vector of the legacy pre-image when the sighash has no
`ANYONECANPAY` bit: every input's script is empty except input `i`,
which carries the pre-image script; for `NONE` and `SINGLE` the other
inputs' sequence numbers are zeroed. -/
def legacyPreimageTxins (inputs : List PartialTxInput) (idx : Nat) (sighash : Nat)
    (ps : List Nat) : List Nat :=
  varInt inputs.length ++
    (List.range inputs.length).flatMap fun k =>
      match inputs[k]? with
      | none => []
      | some txin =>
        if (sighash = 2 ∨ sighash = 3) ∧ idx ≠ k then
          serializeInput { txin.base with script_sig := none, witness := none, nsequence := 0 } []
        else serializeInput txin.base (if idx = k then ps else [])

/-- Embedding of `PartialTransaction.serialize_preimage` for input index
`i` (the `bip143_shared_txdigest_fields` argument defaults to a fresh
computation and is irrelevant here, since the segwit branch raises). -/
def serializePreimage (tx : PartialTransaction) (i : Nat) : Except PyErr (List Nat) := do
  match tx.inputs[i]? with
  | none => .error .indexError
  | some txin => do
    let sighash := txin.sighash.getD 1
    if !sighashValid sighash then .error .generic
    else do
      let ps ← tx.getPreimageScript txin
      let sw ← txin.isSegwit
      if sw then .error .notImplemented
      else do
        let txins ←
          if sighash &&& 128 ≠ 0 then
            if sighash &&& 3 = 0 then .error .notImplemented
            else pure (varInt 1 ++ serializeInput txin.base ps)
          else pure (legacyPreimageTxins tx.inputs i sighash ps)
        let txouts ←
          if sighash = 2 then pure (varInt 0)
          else if sighash = 3 then
            if i > tx.outputs.length then .error .generic
            else pure (varInt i ++
              (tx.outputs.take i).flatMap (fun _ => blankedOutputSer) ++
              ((tx.outputs.drop i).take 1).flatMap (fun o => o.core.serNet))
          else pure (varInt tx.outputs.length ++ tx.outputs.flatMap (fun o => o.core.serNet))
        .ok (intToLE 4 tx.version ++ txins ++ txouts ++ natLE 4 tx.locktime ++ natLE 4 sighash)

end PartialTransaction

/-! ### BIP-69 ordering with the asset overlay -/

/-- Sort key comparison for inputs: lexicographic on
`(prevout.txid, prevout.out_idx)` as Python compares the tuple. -/
def inputLe (a b : PartialTxInput) : Bool :=
  if a.prevout.txid = b.prevout.txid then a.prevout.out_idx ≤ b.prevout.out_idx
  else leBytes a.prevout.txid b.prevout.txid

/-- Sort key comparison for outputs: lexicographic on
`(value, scriptpubkey)`. -/
def outputLe (a b : PartialTxOutput) : Bool :=
  if a.core.value = b.core.value then leBytes a.core.scriptpubkey b.core.scriptpubkey
  else a.core.value ≤ b.core.value

/-- Accumulator of the asset-overlay scan: the burn, parent-owner,
asset-owner and asset-create outputs found so far. -/
structure OverlayAcc where
  burn : Option PartialTxOutput := none
  parentOwner : Option PartialTxOutput := none
  assetOwner : Option PartialTxOutput := none
  assetCreate : Option PartialTxOutput := none

/-- Loop body of the asset-overlay scan of `BIP69_sort`, translated
branch by branch (`burnAddrs` is the externally supplied
`constants.net.BURN_ADDRESSES`). -/
def overlayStep (burnAddrs : List Address) (acc : OverlayAcc) (o : PartialTxOutput) :
    OverlayAcc :=
  match o.core.address with
  | some a =>
    if a ∈ burnAddrs then { acc with burn := some o }
    else overlayStepAsset acc o
  | none => overlayStepAsset acc o
where
  /-- Branches of the loop body past the burn-address test. -/
  overlayStepAsset (acc : OverlayAcc) (o : PartialTxOutput) : OverlayAcc :=
    match o.core.asset with
    | none => acc
    | some asset =>
      if asset = "" then acc
      else if asset.back = '!' then
        match acc.assetCreate with
        | some created =>
          if (asset.dropRight 1) = (created.core.asset.getD "") then
            { acc with
              assetOwner := some o
              parentOwner := if acc.parentOwner.isNone then acc.assetOwner else acc.parentOwner }
          else { acc with parentOwner := some o }
        | none =>
          if acc.assetOwner.isSome then { acc with parentOwner := some o }
          else { acc with assetOwner := some o }
      else
        let acc' := { acc with assetCreate := some o }
        match acc.assetOwner with
        | some owner =>
          if (owner.core.asset.getD "").dropRight 1 ≠ asset then
            { acc' with
              parentOwner := acc.assetOwner
              assetOwner := acc.parentOwner }
          else acc'
        | none => acc'

/-- Membership of an output in a group of optional outputs, by
`TxOutput.__eq__` (Python `o not in (a, b, c, d)` with possible `None`
entries, which never compare equal to an output). -/
def memByEq (o : PartialTxOutput) (l : List (Option PartialTxOutput)) : Bool :=
  l.any fun e =>
    match e with
    | some x => txOutputEq o.core x.core
    | none => false

namespace PartialTransaction

/-- Embedding of `PartialTransaction.BIP69_sort` (both flags at their
default `True`): nothing for a swap transaction; otherwise the stable
sorts by the BIP-69 keys, then the asset overlay rearrangement when both
a burn output and an asset-creation output are present.  `burnAddrs` is
the externally supplied burn-address network parameter. -/
def BIP69_sort (burnAddrs : List Address) (tx : PartialTransaction) : PartialTransaction :=
  if tx.for_swap then tx
  else
    let ins := List.insertionSort (fun a b => inputLe a b = true) tx.inputs
    let outs := List.insertionSort (fun a b => outputLe a b = true) tx.outputs
    let acc := outs.foldl (overlayStep burnAddrs) {}
    let outs' :=
      match acc.burn, acc.assetCreate with
      | some b, some c =>
        let newOuts := outs.filter fun o =>
          !(memByEq o [some b, acc.parentOwner, acc.assetOwner, some c])
        [b] ++ newOuts ++ acc.parentOwner.toList ++ acc.assetOwner.toList ++ [c]
      | _, _ => outs
    { tx with inputs := ins, outputs := outs' }

/-- Embedding of `PartialTransaction.combine_with_other_psbt`: reject
PSBTs whose unsigned serializations differ, then merge the global maps
and the aligned input and output sections (each input merge ends in a
finalize attempt). -/
def combinePsbt (a b : PartialTransaction) : Except PyErr PartialTransaction := do
  let sa ← a.serializeToNetwork false false
  let sb ← b.serializeToNetwork false false
  if sa ≠ sb then .error .generic
  else do
    let ins ← (a.inputs.zip b.inputs).mapM fun p => p.1.combineTxin p.2
    let outs ← (a.outputs.zip b.outputs).mapM fun p => combineTxout p.1 p.2
    .ok { a with
      xpubs := updMap a.xpubs b.xpubs,
      unknownKvs := updMap a.unknownKvs b.unknownKvs,
      inputs := ins,
      outputs := outs }

/-- Merge phase of `combine_with_other_psbt` in isolation (everything
after the equal-serialization guard). -/
def mergeSections (a b : PartialTransaction) : Except PyErr PartialTransaction := do
  let ins ← (a.inputs.zip b.inputs).mapM fun p => p.1.combineTxin p.2
  let outs ← (a.outputs.zip b.outputs).mapM fun p => combineTxout p.1 p.2
  .ok { a with
    xpubs := updMap a.xpubs b.xpubs,
    unknownKvs := updMap a.unknownKvs b.unknownKvs,
    inputs := ins,
    outputs := outs }

end PartialTransaction

/-! ### Concrete instances used to evaluate the embedding

The example transactions below are used by witness and counterexample
theorems: a compressed-size public key, single-signature p2pk inputs
with a trusted input value, a one-byte `OP_1` output script, and a
complete one-input one-output previous transaction. -/

/-- Example 33-byte public key. -/
def exPk33 : List Nat := 2 :: List.replicate 32 51

/-- Example p2pk input with a trusted value, parameterised by outpoint,
witness and sighash. -/
def exIn (pv : TxOutpoint) (wit : Option (List Nat)) (sh : Option Nat) : PartialTxInput :=
  { prevout := pv, witness := wit, sighash := sh, script_type := "p2pk",
    pubkeys := [exPk33], trusted_value_sats := some ⟨1000, []⟩ }

/-- Example output paying to the one-byte script `OP_1`. -/
def exOut51 : PartialTxOutput := { core := ⟨[81], 7, none⟩ }

/-- Example partial transaction with one segwit p2pk input. -/
def exCtx1 : PartialTransaction :=
  { inputs := [exIn ⟨List.replicate 32 17, 0⟩ (some [1]) none], outputs := [exOut51] }

/-- Example partial transaction with two non-segwit `SIGHASH_SINGLE`
p2pk inputs and a single output. -/
def exCtx2 : PartialTransaction :=
  { inputs := [exIn ⟨List.replicate 32 17, 0⟩ none (some 3),
               exIn ⟨List.replicate 32 17, 1⟩ none (some 3)],
    outputs := [exOut51] }

/-- Example partial transaction whose only input is segwit (a non-empty
witness) but of unknown script type. -/
def exPtx4 : PartialTransaction :=
  { inputs := [{ prevout := ⟨List.replicate 32 17, 0⟩, witness := some [1] }],
    outputs := [exOut51] }

/-- Example 20-byte hash for a burn address. -/
def exH20 : List Nat := List.replicate 20 66

/-- Example burn address (an externally configured network parameter). -/
def exBurnAddr : Address := .p2pkh exH20

/-- Example asset-creation output (asset name not ending in an
exclamation mark), value 5. -/
def exCreateOut : PartialTxOutput := { core := ⟨[81], 5, some "A"⟩ }

/-- Example output paying value 100 to the burn address. -/
def exBurnOut : PartialTxOutput :=
  { core := ⟨[118, 169, 20] ++ exH20 ++ [136, 172], 100, none⟩ }

/-- Example partial transaction with a burn output and an asset-creation
output. -/
def exTx5 : PartialTransaction := { outputs := [exCreateOut, exBurnOut] }

/-- Example complete previous transaction (one input with an empty
script-sig, one `OP_1` output of value 7). -/
def exUtx : Transaction :=
  { version := 2, locktime := 0,
    inputs := [⟨⟨List.replicate 32 34, 0⟩, some [], 4294967294, none, false, none⟩],
    outputs := [⟨[81], 7, none⟩] }

/-- Transaction identifier of `exUtx` (the byte-reversed double SHA-256
of its legacy serialization, as computed by the embedding). -/
def exUtxid : List Nat :=
  [138, 101, 98, 206, 17, 180, 157, 146, 143, 156, 223, 122, 242, 67, 142, 55,
   59, 82, 31, 151, 195, 46, 193, 230, 28, 12, 111, 74, 81, 161, 75, 248]

/-- Example witness UTXO snapshot that disagrees with `exUtx.outputs[0]`
in the value field. -/
def exW9 : TxOutput := ⟨[81], 9, none⟩

/-- Example input holding a witness UTXO, whose outpoint does not match
the identifier of `exUtx`. -/
def exI8 : PartialTxInput := { prevout := ⟨List.replicate 32 17, 0⟩, witness_utxo := some exW9 }

/-- Example PSBT holding a witness UTXO for the outpoint `exUtxid:0`. -/
def exA6 : PartialTransaction :=
  { inputs := [{ prevout := ⟨exUtxid, 0⟩, witness_utxo := some exW9 }], outputs := [exOut51] }

/-- Example PSBT holding the full previous transaction for the outpoint
`exUtxid:0`; its unsigned serialization equals that of `exA6`. -/
def exB6 : PartialTransaction :=
  { inputs := [{ prevout := ⟨exUtxid, 0⟩, utxo := some exUtx }], outputs := [exOut51] }

/-- Example incomplete PSBT (no signatures, unknown script type). -/
def exP9 : PartialTransaction :=
  { inputs := [{ prevout := ⟨List.replicate 32 17, 0⟩ }], outputs := [exOut51] }

/-- Example input used as an assignment target. -/
def exI9 : PartialTxInput := { prevout := ⟨List.replicate 32 18, 1⟩ }

/-- Unsigned serialization of `exA6` (identical to that of `exB6`). -/
def exSer6 : List Nat := (exA6.serializeToNetwork false false).toOption.getD []

/-! ### Helper lemmas -/

theorem leBytes_nil (b : List Nat) : leBytes [] b = true := by
  cases b <;> rfl

theorem leBytes_total : ∀ a b : List Nat, leBytes a b = true ∨ leBytes b a = true := by
  intro a
  induction a with
  | nil => intro b; left; exact leBytes_nil b
  | cons x xs ih =>
    intro b
    cases b with
    | nil => right; exact leBytes_nil _
    | cons y ys =>
      rcases Nat.lt_trichotomy x y with h | h | h
      · left; simp [leBytes, h]
      · subst h
        rcases ih ys with h' | h'
        · left; simp [leBytes, h']
        · right; simp [leBytes, h']
      · right; simp [leBytes, h]

theorem leBytes_trans : ∀ a b c : List Nat,
    leBytes a b = true → leBytes b c = true → leBytes a c = true := by
  intro a
  induction a with
  | nil => intro b c _ _; exact leBytes_nil c
  | cons x xs ih =>
    intro b c hab hbc
    cases b with
    | nil => simp [leBytes] at hab
    | cons y ys =>
      cases c with
      | nil => simp [leBytes] at hbc
      | cons z zs =>
        rcases Nat.lt_trichotomy x y with hxy | hxy | hxy
        · rcases Nat.lt_trichotomy y z with hyz | hyz | hyz
          · simp [leBytes, Nat.lt_trans hxy hyz]
          · subst hyz; simp [leBytes, hxy]
          · simp [leBytes, hyz, Nat.lt_asymm hyz] at hbc
        · subst hxy
          simp only [leBytes, if_neg (Nat.lt_irrefl x)] at hab
          rcases Nat.lt_trichotomy x z with hxz | hxz | hxz
          · simp [leBytes, hxz]
          · subst hxz
            simp only [leBytes, if_neg (Nat.lt_irrefl x)] at hbc
            simp only [leBytes, if_neg (Nat.lt_irrefl x)]
            exact ih ys zs hab hbc
          · simp [leBytes, hxz, Nat.lt_asymm hxz] at hbc
        · simp [leBytes, hxy, Nat.lt_asymm hxy] at hab

theorem leBytes_antisymm : ∀ a b : List Nat,
    leBytes a b = true → leBytes b a = true → a = b := by
  intro a
  induction a with
  | nil =>
    intro b _ hba
    cases b with
    | nil => rfl
    | cons y ys => simp [leBytes] at hba
  | cons x xs ih =>
    intro b hab hba
    cases b with
    | nil => simp [leBytes] at hab
    | cons y ys =>
      rcases Nat.lt_trichotomy x y with hxy | hxy | hxy
      · simp [leBytes, hxy, Nat.lt_asymm hxy] at hba
      · subst hxy
        simp only [leBytes, if_neg (Nat.lt_irrefl x)] at hab hba
        rw [ih ys hab hba]
      · simp [leBytes, hxy, Nat.lt_asymm hxy] at hab

theorem inputLe_total : ∀ a b : PartialTxInput, inputLe a b = true ∨ inputLe b a = true := by
  intro a b
  by_cases h : a.prevout.txid = b.prevout.txid
  · simp [inputLe, h]; omega
  · have h' : b.prevout.txid ≠ a.prevout.txid := fun hh => h hh.symm
    simp only [inputLe, if_neg h, if_neg h']
    exact leBytes_total _ _

theorem inputLe_trans : ∀ a b c : PartialTxInput,
    inputLe a b = true → inputLe b c = true → inputLe a c = true := by
  intro a b c hab hbc
  by_cases hab' : a.prevout.txid = b.prevout.txid
  · by_cases hbc' : b.prevout.txid = c.prevout.txid
    · have hac : a.prevout.txid = c.prevout.txid := hab'.trans hbc'
      simp only [inputLe, if_pos hab'] at hab
      simp only [inputLe, if_pos hbc'] at hbc
      simp only [inputLe, if_pos hac]
      simp at hab hbc ⊢; omega
    · have hac : a.prevout.txid ≠ c.prevout.txid := by rw [hab']; exact hbc'
      simp only [inputLe, if_neg hbc'] at hbc
      simp only [inputLe, if_neg hac]
      rw [hab']; exact hbc
  · by_cases hbc' : b.prevout.txid = c.prevout.txid
    · have hac : a.prevout.txid ≠ c.prevout.txid := by rw [← hbc']; exact hab'
      simp only [inputLe, if_neg hab'] at hab
      simp only [inputLe, if_neg hac]
      rw [← hbc']; exact hab
    · simp only [inputLe, if_neg hab'] at hab
      simp only [inputLe, if_neg hbc'] at hbc
      by_cases hac : a.prevout.txid = c.prevout.txid
      · exact absurd (leBytes_antisymm _ _ hab (by rw [hac]; exact hbc)) hab'
      · simp only [inputLe, if_neg hac]
        exact leBytes_trans _ _ _ hab hbc

theorem outputLe_total : ∀ a b : PartialTxOutput, outputLe a b = true ∨ outputLe b a = true := by
  intro a b
  by_cases h : a.core.value = b.core.value
  · have h' : b.core.value = a.core.value := h.symm
    simp only [outputLe, if_pos h, if_pos h']
    exact leBytes_total _ _
  · have h' : b.core.value ≠ a.core.value := fun hh => h hh.symm
    simp [outputLe, if_neg h, if_neg h']; omega

theorem outputLe_trans : ∀ a b c : PartialTxOutput,
    outputLe a b = true → outputLe b c = true → outputLe a c = true := by
  intro a b c hab hbc
  by_cases hab' : a.core.value = b.core.value
  · by_cases hbc' : b.core.value = c.core.value
    · have hac : a.core.value = c.core.value := hab'.trans hbc'
      simp only [outputLe, if_pos hab'] at hab
      simp only [outputLe, if_pos hbc'] at hbc
      simp only [outputLe, if_pos hac]
      exact leBytes_trans _ _ _ hab hbc
    · have hac : a.core.value ≠ c.core.value := by rw [hab']; exact hbc'
      simp only [outputLe, if_neg hbc'] at hbc
      simp only [outputLe, if_neg hac]
      rw [hab']; exact hbc
  · by_cases hbc' : b.core.value = c.core.value
    · have hac : a.core.value ≠ c.core.value := by rw [← hbc']; exact hab'
      simp only [outputLe, if_neg hab'] at hab
      simp only [outputLe, if_neg hac]
      rw [← hbc']; exact hab
    · simp only [outputLe, if_neg hab'] at hab
      simp only [outputLe, if_neg hbc'] at hbc
      by_cases hac : a.core.value = c.core.value
      · simp at hab hbc; omega
      · simp only [outputLe, if_neg hac]
        simp at hab hbc ⊢; omega

instance : IsTotal PartialTxInput (fun a b => inputLe a b = true) := ⟨inputLe_total⟩
instance : IsTrans PartialTxInput (fun a b => inputLe a b = true) := ⟨inputLe_trans⟩
instance : IsTotal PartialTxOutput (fun a b => outputLe a b = true) := ⟨outputLe_total⟩
instance : IsTrans PartialTxOutput (fun a b => outputLe a b = true) := ⟨outputLe_trans⟩

theorem take_findIdx_eq_takeWhile {α : Type} (p : α → Bool) :
    ∀ l : List α, l.take (l.findIdx p) = l.takeWhile (fun a => !p a) := by
  intro l
  induction l with
  | nil => rfl
  | cons a l ih =>
    rw [List.findIdx_cons, List.takeWhile_cons]
    cases hp : p a with
    | true => simp [hp]
    | false => simp [hp, ih]

theorem isOk_stepCons (n i' : Nat) (X : List Nat) (hd : Nat × Option (List Nat) × Nat)
    (ih : (getOpsGo n i' X).isOk = !(lenPfxTruncated n X)) :
    (match getOpsGo n i' X with
     | .error e => (.error e : Except PyErr (List (Nat × Option (List Nat) × Nat)))
     | .ok tl => .ok (hd :: tl)).isOk = !(lenPfxTruncated n X) := by
  cases hrec : getOpsGo n i' X with
  | error e => rw [hrec] at ih; exact ih
  | ok tl => rw [hrec] at ih; exact ih

theorem getOpsGo_isOk : ∀ (fuel i : Nat) (bs : List Nat),
    (getOpsGo fuel i bs).isOk = !(lenPfxTruncated fuel bs) := by
  intro fuel
  induction fuel with
  | zero => intro i bs; rfl
  | succ n ih =>
    intro i bs
    cases bs with
    | nil => rfl
    | cons opcode rest =>
      by_cases h78 : opcode ≤ 78
      · by_cases h76 : opcode = 76
        · subst h76
          cases rest with
          | nil => rfl
          | cons a tl =>
            exact isOk_stepCons n (i + 1 + 1 + a) (tl.drop a) _ (ih _ _)
        · by_cases h77 : opcode = 77
          · subst h77
            match rest with
            | [] => rfl
            | [a] => rfl
            | a :: b :: tl =>
              exact isOk_stepCons n (i + 1 + 2 + (a + 256 * b)) (tl.drop (a + 256 * b)) _ (ih _ _)
          · by_cases h78' : opcode = 78
            · subst h78'
              match rest with
              | [] => rfl
              | [a] => rfl
              | [a, b] => rfl
              | [a, b, c] => rfl
              | a :: b :: c :: d :: tl =>
                exact isOk_stepCons n (i + 1 + 4 + (a + 256 * b + 65536 * c + 16777216 * d))
                  (tl.drop (a + 256 * b + 65536 * c + 16777216 * d)) _ (ih _ _)
            · have hgo : getOpsGo (n + 1) i (opcode :: rest) =
                  match getOpsGo n (i + 1 + 0 + opcode) (rest.drop opcode) with
                  | .error e => .error e
                  | .ok tl => .ok ((opcode, some (rest.take opcode), i + 1 + 0 + opcode) :: tl) := by
                simp only [getOpsGo, if_pos h78, if_neg h76, if_neg h77, if_neg h78',
                  List.drop_zero]
              have hlp : lenPfxTruncated (n + 1) (opcode :: rest) =
                  lenPfxTruncated n (rest.drop opcode) := by
                simp only [lenPfxTruncated, if_pos h78, if_neg h76, if_neg h77, if_neg h78']
              rw [hgo, hlp]
              exact isOk_stepCons n (i + 1 + 0 + opcode) (rest.drop opcode) _ (ih _ _)
      · have h78'' : ¬opcode ≤ 78 := h78
        have hgo : getOpsGo (n + 1) i (opcode :: rest) =
            match getOpsGo n (i + 1) rest with
            | .error e => .error e
            | .ok tl => .ok ((opcode, none, i + 1) :: tl) := by
          simp only [getOpsGo, if_neg h78'']
        have hlp : lenPfxTruncated (n + 1) (opcode :: rest) = lenPfxTruncated n rest := by
          simp only [lenPfxTruncated, if_neg h78'']
        rw [hgo, hlp]
        cases hrec : getOpsGo n (i + 1) rest with
        | error e =>
          have h := ih (i + 1) rest
          rw [hrec] at h
          exact h
        | ok tl =>
          have h := ih (i + 1) rest
          rw [hrec] at h
          exact h

theorem overlayStepAsset_burn (acc : OverlayAcc) (o : PartialTxOutput) :
    (overlayStep.overlayStepAsset acc o).burn = acc.burn := by
  unfold overlayStep.overlayStepAsset
  repeat' split
  all_goals rfl

theorem overlay_fold_burn_none (burnAddrs : List Address) :
    ∀ (l : List PartialTxOutput) (acc : OverlayAcc),
      (∀ o ∈ l, ∀ a, o.core.address = some a → a ∉ burnAddrs) →
      (l.foldl (overlayStep burnAddrs) acc).burn = acc.burn := by
  intro l
  induction l with
  | nil => intro acc _; rfl
  | cons o l ih =>
    intro acc h
    have hstep : (overlayStep burnAddrs acc o).burn = acc.burn := by
      unfold overlayStep
      cases ha : o.core.address with
      | none => exact overlayStepAsset_burn acc o
      | some a =>
        have : a ∉ burnAddrs := h o (by simp) a ha
        simp only [if_neg this]
        exact overlayStepAsset_burn acc o
    rw [List.foldl_cons, ih (overlayStep burnAddrs acc o) (fun x hx => h x (by simp [hx]))]
    exact hstep

theorem overlayStepAsset_create (acc : OverlayAcc) (o : PartialTxOutput)
    (h : ∀ s, o.core.asset = some s → s ≠ "" → s.back = '!') :
    (overlayStep.overlayStepAsset acc o).assetCreate = acc.assetCreate := by
  unfold overlayStep.overlayStepAsset
  cases ha : o.core.asset with
  | none => rfl
  | some s =>
    by_cases he : s = ""
    · simp [he]
    · have hb : s.back = '!' := h s ha he
      simp only [if_neg he, if_pos hb]
      repeat' split
      all_goals rfl

theorem overlay_fold_create_none (burnAddrs : List Address) :
    ∀ (l : List PartialTxOutput) (acc : OverlayAcc),
      (∀ o ∈ l, ∀ s, o.core.asset = some s → s ≠ "" → s.back = '!') →
      (l.foldl (overlayStep burnAddrs) acc).assetCreate = acc.assetCreate := by
  intro l
  induction l with
  | nil => intro acc _; rfl
  | cons o l ih =>
    intro acc h
    have hstep : (overlayStep burnAddrs acc o).assetCreate = acc.assetCreate := by
      unfold overlayStep
      cases ha : o.core.address with
      | none => exact overlayStepAsset_create acc o (h o (by simp))
      | some a =>
        by_cases hmem : a ∈ burnAddrs
        · simp only [if_pos hmem]
        · simp only [if_neg hmem]
          exact overlayStepAsset_create acc o (h o (by simp))
    rw [List.foldl_cons, ih (overlayStep burnAddrs acc o) (fun x hx => h x (by simp [hx]))]
    exact hstep

theorem ensureOneUtxo_not_both (i : PartialTxInput) :
    ¬((i.ensureOneUtxo).utxo.isSome = true ∧ (i.ensureOneUtxo).witness_utxo.isSome = true) := by
  by_cases h : i.utxo.isSome = true ∧ i.witness_utxo.isSome = true
  · simp [PartialTxInput.ensureOneUtxo, if_pos h]
  · simp only [PartialTxInput.ensureOneUtxo, if_neg h]
    exact h

theorem getOpsGo_nil : ∀ (fuel i : Nat), getOpsGo fuel i [] = .ok [] := by
  intro fuel
  cases fuel <;> intro i <;> rfl

theorem exceptBind_ok {α β : Type} (a : α) (f : α → Except PyErr β) :
    (Except.ok a >>= f) = f a := rfl

theorem exceptBind_err {α β : Type} (e : PyErr) (f : α → Except PyErr β) :
    ((Except.error e : Except PyErr α) >>= f) = .error e := rfl

theorem exceptBind_pure {α β : Type} (a : α) (f : α → Except PyErr β) :
    ((pure a : Except PyErr α) >>= f) = f a := rfl

/-! ### Claim theorems -/

/-- C3 (counterexample): a direct push announcing 2 payload bytes with
only one byte available does not raise the malformed-script error; the
walker yields the short payload and terminates. -/
theorem script_getop_truncated_payload_ok :
    script_GetOp [2, 170] = .ok [(2, some [170], 3)] := by decide

/-- C3 (amended): iterating `script_GetOp` raises the malformed-script
error exactly when an `OP_PUSHDATA1/2/4` length prefix is truncated; a
direct push (opcode `1..75`) whose announced payload extends past the
end of the script instead yields the available (short) payload without
error. -/
theorem script_getop_truncation :
    (∀ bs : List Nat, (script_GetOp bs).isOk = !(scriptHasTruncatedLenByte bs))
    ∧ (∀ (n : Nat) (rest : List Nat), 1 ≤ n → n ≤ 75 → rest.length < n →
        script_GetOp (n :: rest) = .ok [(n, some rest, 1 + n)]) := by
  constructor
  · intro bs
    exact getOpsGo_isOk bs.length 0 bs
  · intro n rest h1 h75 hlen
    show getOpsGo (rest.length + 1) 0 (n :: rest) = _
    have hgo : getOpsGo (rest.length + 1) 0 (n :: rest) =
        match getOpsGo rest.length (0 + 1 + 0 + n) (rest.drop n) with
        | .error e => .error e
        | .ok tl => .ok ((n, some (rest.take n), 0 + 1 + 0 + n) :: tl) := by
      simp only [getOpsGo, if_pos (show n ≤ 78 by omega), if_neg (show ¬n = 76 by omega),
        if_neg (show ¬n = 77 by omega), if_neg (show ¬n = 78 by omega), List.drop_zero]
    rw [hgo, List.drop_eq_nil_of_le (by omega), getOpsGo_nil,
      List.take_of_length_le (by omega)]

/-- C3 (witness): the amended characterization applied to the concrete
script `[0x02, 0xAA]` and to a script with a truncated `OP_PUSHDATA1`
length prefix. -/
theorem script_getop_truncation_witness :
    script_GetOp (2 :: [170]) = .ok [(2, some [170], 1 + 2)]
    ∧ (script_GetOp [76]).isOk = !(scriptHasTruncatedLenByte [76]) := by
  exact ⟨script_getop_truncation.2 2 [170] (by decide) (by decide) (by decide),
    script_getop_truncation.1 [76]⟩

/-- C7: matching a raw script byte string against a template gives the
same answer as matching the prefix of the decoded script that strictly
precedes the first `OP_RVN_ASSET` opcode — the asset-extension suffix is
invisible to template matching. -/
theorem match_template_asset_suffix :
    ∀ (bs : List Nat) (t : List TemplateItem) (d : List (Nat × Option (List Nat) × Nat)),
      script_GetOp bs = .ok d →
      matchScriptBytes bs t = matchItems (d.takeWhile (fun s => !(s.1 == OP_RVN_ASSET))) t := by
  intro bs t d h
  unfold matchScriptBytes
  rw [h]
  show matchItems (chopAtRvnAsset d) t = _
  unfold chopAtRvnAsset
  rw [take_findIdx_eq_takeWhile]

/-- C7 (witness): the suffix-invariance applied to a concrete P2PKH
script extended with an `OP_RVN_ASSET` suffix. -/
theorem match_template_asset_suffix_witness :
    script_GetOp ([118, 169, 20] ++ exH20 ++ [136, 172, 192, 4, 1, 2, 3, 4]) =
      .ok [(118, none, 1), (169, none, 2), (20, some exH20, 23), (136, none, 24),
        (172, none, 25), (192, none, 26), (4, some [1, 2, 3, 4], 31)]
    ∧ matchScriptBytes ([118, 169, 20] ++ exH20 ++ [136, 172, 192, 4, 1, 2, 3, 4]) TEMPLATE_P2PKH =
        matchItems
          (([(118, none, 1), (169, none, 2), (20, some exH20, 23), (136, none, 24),
            (172, none, 25), (192, none, 26), (4, some [1, 2, 3, 4], 31)].takeWhile
              (fun s => !(s.1 == OP_RVN_ASSET))))
          TEMPLATE_P2PKH := by
  refine ⟨by decide, ?_⟩
  exact match_template_asset_suffix _ TEMPLATE_P2PKH _ (by decide)

/-- C9: assigning `None` to the `utxo` property, or a PSBT that is not
complete, leaves the input unchanged and raises nothing — the
assignment is silently ignored. -/
theorem utxo_setter_ignores :
    (∀ i : PartialTxInput, i.utxoSet none = (none, i))
    ∧ (∀ (i : PartialTxInput) (p : PartialTransaction),
        p.isComplete = .ok false → i.utxoSet (some (.inr p)) = (none, i)) := by
  constructor
  · intro i; rfl
  · intro i p h
    simp only [PartialTxInput.utxoSet, h]

/-- C9 (witness): the setter applied to `None` and to the concrete
incomplete PSBT `exP9`. -/
theorem utxo_setter_ignores_witness :
    exI9.utxoSet none = (none, exI9)
    ∧ (exP9.isComplete = .ok false ∧ exI9.utxoSet (some (.inr exP9)) = (none, exI9)) :=
  ⟨utxo_setter_ignores.1 exI9,
    by decide, utxo_setter_ignores.2 exI9 exP9 (by decide)⟩

/-- C1 (counterexample): for a concrete segwit p2pk input the pre-image
serialization raises `NotImplementedError` instead of returning the
BIP-143 pre-image. -/
theorem preimage_segwit_counterexample :
    (exCtx1.inputs[0]?.map PartialTxInput.isSegwit) = some (.ok true)
    ∧ exCtx1.serializePreimage 0 = .error .notImplemented := by decide

/-- C1 (amended): for a segwit input, `serialize_preimage` never returns
a pre-image; whenever the sighash flag is admissible and the pre-image
script is constructible, it raises exactly `NotImplementedError` (the
BIP-143 assembly after the raise is dead code). -/
theorem preimage_segwit_not_implemented :
    ∀ (tx : PartialTransaction) (i : Nat) (txin : PartialTxInput),
      tx.inputs[i]? = some txin → txin.isSegwit = .ok true →
      ((∀ s : List Nat, tx.serializePreimage i ≠ .ok s)
        ∧ (∀ ps : List Nat, sighashValid (txin.sighash.getD 1) = true →
            tx.getPreimageScript txin = .ok ps →
            tx.serializePreimage i = .error .notImplemented)) := by
  intro tx i txin hin hsw
  constructor
  · intro s hok
    simp only [PartialTransaction.serializePreimage, hin] at hok
    by_cases hv : sighashValid (txin.sighash.getD 1) = true
    · simp only [hv, Bool.not_true, Bool.false_eq_true, if_false] at hok
      cases hgps : tx.getPreimageScript txin with
      | error e => rw [hgps] at hok; simp [exceptBind_err] at hok
      | ok ps =>
        rw [hgps] at hok
        rw [exceptBind_ok] at hok
        rw [hsw] at hok
        rw [exceptBind_ok] at hok
        simp at hok
    · simp only [Bool.not_eq_true] at hv
      simp [hv] at hok
  · intro ps hv hgps
    simp only [PartialTransaction.serializePreimage, hin, hv, Bool.not_true,
      Bool.false_eq_true, if_false, hgps, exceptBind_ok, hsw]
    rfl

/-- C2 (counterexample): with two non-segwit inputs and a single output,
the legacy `SIGHASH_SINGLE` pre-image for input index 1 — an index equal
to the number of outputs — does not raise; it succeeds, emitting only
blanked outputs. -/
theorem preimage_single_at_len_ok :
    exCtx2.outputs.length = 1
    ∧ (exCtx2.inputs[1]?.map (fun t => t.sighash)) = some (some 3)
    ∧ (exCtx2.inputs[1]?.map PartialTxInput.isSegwit) = some (.ok false)
    ∧ (exCtx2.serializePreimage 1).isOk = true := by decide

/-- C2 (amended): for a non-segwit input `i` with effective sighash
`SINGLE` (and a constructible pre-image script), `serialize_preimage`
raises exactly when `i > len(outputs)`; for `i < len(outputs)` it emits
outputs `0..i` with outputs `0..i-1` blanked (empty script, value
`2^64-1`, no asset) and output `i` intact; for `i = len(outputs)` it
emits the `i` blanked outputs only. -/
theorem preimage_single_boundary :
    ∀ (tx : PartialTransaction) (i : Nat) (txin : PartialTxInput) (ps : List Nat),
      tx.inputs[i]? = some txin → txin.sighash = some 3 →
      txin.isSegwit = .ok false → tx.getPreimageScript txin = .ok ps →
      (((tx.serializePreimage i).isOk = true) ↔ i ≤ tx.outputs.length)
      ∧ (i ≤ tx.outputs.length →
          tx.serializePreimage i = .ok (intToLE 4 tx.version
            ++ PartialTransaction.legacyPreimageTxins tx.inputs i 3 ps
            ++ (varInt i
                ++ (tx.outputs.take i).flatMap (fun _ => PartialTransaction.blankedOutputSer)
                ++ ((tx.outputs.drop i).take 1).flatMap (fun o => o.core.serNet))
            ++ natLE 4 tx.locktime ++ natLE 4 3))
      ∧ (tx.outputs.length < i → tx.serializePreimage i = .error .generic) := by
  intro tx i txin ps hin hsh hsw hgps
  have hred : tx.serializePreimage i =
      (if i > tx.outputs.length then .error .generic
       else .ok (intToLE 4 tx.version
         ++ PartialTransaction.legacyPreimageTxins tx.inputs i 3 ps
         ++ (varInt i
             ++ (tx.outputs.take i).flatMap (fun _ => PartialTransaction.blankedOutputSer)
             ++ ((tx.outputs.drop i).take 1).flatMap (fun o => o.core.serNet))
         ++ natLE 4 tx.locktime ++ natLE 4 3)) := by
    simp only [PartialTransaction.serializePreimage, hin, hsh, Option.getD_some]
    simp only [show sighashValid 3 = true from rfl, Bool.not_true, Bool.false_eq_true, if_false]
    simp only [hgps, exceptBind_ok, hsw]
    simp only [Bool.false_eq_true, if_false]
    simp only [show ((3 : Nat) &&& 128 ≠ 0) = False by decide, ite_false, exceptBind_pure]
    simp only [show ((3 : Nat) = 2) = False by decide, show ((3 : Nat) = 3) = True by simp,
      ite_false, ite_true]
    by_cases hgt : i > tx.outputs.length
    · simp only [if_pos hgt, exceptBind_err]
    · simp only [if_neg hgt, exceptBind_pure]
  refine ⟨?_, ?_, ?_⟩
  · constructor
    · intro hok
      by_cases hgt : i > tx.outputs.length
      · rw [hred, if_pos hgt] at hok; simp [Except.isOk, Except.toBool] at hok
      · omega
    · intro hle
      rw [hred, if_neg (by omega)]
      rfl
  · intro hle
    rw [hred, if_neg (by omega)]
  · intro hlt
    rw [hred, if_pos (by omega)]

/-- C1 (witness): the amended claim applied to the concrete segwit
transaction `exCtx1`. -/
theorem preimage_segwit_not_implemented_witness :
    (∀ s : List Nat, exCtx1.serializePreimage 0 ≠ .ok s)
    ∧ exCtx1.serializePreimage 0 = .error .notImplemented :=
  ⟨(preimage_segwit_not_implemented exCtx1 0
      (exIn ⟨List.replicate 32 17, 0⟩ (some [1]) none) (by decide) (by decide)).1,
   (preimage_segwit_not_implemented exCtx1 0
      (exIn ⟨List.replicate 32 17, 0⟩ (some [1]) none) (by decide) (by decide)).2
      (33 :: exPk33 ++ [172]) (by decide) (by decide)⟩

/-- C2 (witness): the amended claim applied to the concrete transaction
`exCtx2` at input index 0 (strictly below the output count: the one
output stays intact) and at index 2 (above the output count: the
source raises). -/
theorem preimage_single_boundary_witness :
    exCtx2.serializePreimage 0 = .ok (intToLE 4 exCtx2.version
      ++ PartialTransaction.legacyPreimageTxins exCtx2.inputs 0 3 (33 :: exPk33 ++ [172])
      ++ (varInt 0
          ++ (exCtx2.outputs.take 0).flatMap (fun _ => PartialTransaction.blankedOutputSer)
          ++ ((exCtx2.outputs.drop 0).take 1).flatMap (fun o => o.core.serNet))
      ++ natLE 4 exCtx2.locktime ++ natLE 4 3) :=
  (preimage_single_boundary exCtx2 0 (exIn ⟨List.replicate 32 17, 0⟩ none (some 3))
    (33 :: exPk33 ++ [172]) (by decide) (by decide) (by decide) (by decide)).2.1 (by decide)

/-- C4 (counterexample): a transaction whose only input is segwit but of
unknown script type: `txid` returns `None` (the `UnknownTxinType` raised
while building the legacy serialization is swallowed), although the
claim promises the txid whenever every input is segwit. -/
theorem txid_all_segwit_none :
    (exPtx4.inputs.mapM PartialTxInput.isSegwit) = .ok [true]
    ∧ exPtx4.txid = .ok none := by decide

/-- C4 (amended): `txid` is the byte-reversed double SHA-256 of the
forced-legacy serialization when the transaction is complete or
all-segwit and that serialization succeeds; it is `None` when the
transaction is neither complete nor all-segwit, and also when the
serialization fails with `UnknownTxinType`; any other serialization
failure propagates. -/
theorem txid_characterization :
    (∀ tx : Transaction,
      (∀ s, tx.serializeToNetwork true true = .ok s →
        tx.txid = .ok (some (sha256d s).reverse))
      ∧ (tx.serializeToNetwork true true = .error .unknownTxinType → tx.txid = .ok none)
      ∧ (∀ e, tx.serializeToNetwork true true = .error e → e ≠ .unknownTxinType →
          tx.txid = .error e))
    ∧ (∀ (tx : PartialTransaction) (sws : List Bool) (comp : Bool),
        tx.inputs.mapM PartialTxInput.isSegwit = .ok sws → tx.isComplete = .ok comp →
        ((sws.all id = false → comp = false → tx.txid = .ok none)
          ∧ (sws.all id = true ∨ comp = true →
              ((∀ s, tx.serializeToNetwork true true = .ok s →
                  tx.txid = .ok (some (sha256d s).reverse))
                ∧ (tx.serializeToNetwork true true = .error .unknownTxinType →
                    tx.txid = .ok none)
                ∧ (∀ e, tx.serializeToNetwork true true = .error e →
                    e ≠ .unknownTxinType → tx.txid = .error e))))) := by
  constructor
  · intro tx
    have hc : (!tx.inputs.all TxInput.isSegwitBase && !tx.isComplete) = false := by
      simp [Transaction.isComplete]
    refine ⟨?_, ?_, ?_⟩
    · intro s hs
      simp only [Transaction.txid, hc, Bool.false_eq_true, if_false, hs]
    · intro hu
      simp only [Transaction.txid, hc, Bool.false_eq_true, if_false, hu]
    · intro e he hne
      simp only [Transaction.txid, hc, Bool.false_eq_true, if_false, he]
  · intro tx sws comp hsws hcomp
    constructor
    · intro hall hc
      simp only [PartialTransaction.txid, hsws, hcomp, exceptBind_ok, hall, hc,
        Bool.not_false, Bool.and_self, if_true]
    · intro hor
      have hcond : (!sws.all id && !comp) = false := by
        rcases hor with h | h <;> simp [h]
      refine ⟨?_, ?_, ?_⟩
      · intro s hs
        simp only [PartialTransaction.txid, hsws, hcomp, exceptBind_ok, hcond,
          Bool.false_eq_true, if_false, hs]
      · intro hu
        simp only [PartialTransaction.txid, hsws, hcomp, exceptBind_ok, hcond,
          Bool.false_eq_true, if_false, hu]
      · intro e he hne
        simp only [PartialTransaction.txid, hsws, hcomp, exceptBind_ok, hcond,
          Bool.false_eq_true, if_false, he]

/-- C4 (witness): the amended claim applied to the all-segwit
transaction `exPtx4`, whose serialization fails with
`UnknownTxinType`. -/
theorem txid_characterization_witness :
    exPtx4.txid = .ok none :=
  ((txid_characterization.2 exPtx4 [true] false (by decide) (by decide)).2
    (Or.inl (by decide))).2.1 (by decide)

/-- C6 (counterexample): two PSBTs with identical unsigned
serializations whose combination nevertheless raises: the merged
non-witness UTXO conflicts with the witness UTXO already present, so the
`utxo` setter inside the per-input merge raises a PSBT consistency
failure. -/
theorem combine_equal_ser_raises :
    exA6.serializeToNetwork false false = exB6.serializeToNetwork false false
    ∧ (exA6.serializeToNetwork false false).isOk = true
    ∧ exA6.combinePsbt exB6 = .error .psbtConsistency := by decide

/-- C6 (amended): `combine_with_other_psbt` raises whenever the two
unsigned serializations differ; when they agree it runs the section
merge — merging global xpubs and unknown keys and the aligned input and
output pairs, finalizing each input — which may itself still raise (for
example a UTXO consistency failure, as the counterexample shows). -/
theorem combine_psbt_guard :
    ∀ (a b : PartialTransaction) (sa sb : List Nat),
      a.serializeToNetwork false false = .ok sa →
      b.serializeToNetwork false false = .ok sb →
      ((sa ≠ sb → a.combinePsbt b = .error .generic)
        ∧ (sa = sb → a.combinePsbt b = a.mergeSections b)) := by
  intro a b sa sb ha hb
  constructor
  · intro hne
    simp only [PartialTransaction.combinePsbt, ha, hb, exceptBind_ok]
    rw [if_pos hne]
  · intro heq
    simp only [PartialTransaction.combinePsbt, ha, hb, exceptBind_ok]
    rw [if_neg (by simp [heq])]
    rfl

/-- C6 (witness): the guard applied to the concrete pair
`exA6`/`exB6` (equal serializations, so the merge phase runs). -/
theorem combine_psbt_guard_witness :
    exA6.combinePsbt exB6 = exA6.mergeSections exB6 :=
  (combine_psbt_guard exA6 exB6 exSer6 exSer6 (by decide) (by decide)).2 rfl

theorem finalizeTxin_preserves_utxos (i r : PartialTxInput)
    (h : i.finalizeTxin = .ok r) :
    r.utxo = i.utxo ∧ r.witness_utxo = i.witness_utxo := by
  simp only [PartialTxInput.finalizeTxin] at h
  split at h
  · simp only [Except.ok.injEq] at h
    subst h
    exact ⟨rfl, rfl⟩
  · cases hc : i.isComplete with
    | error e => rw [hc] at h; simp [exceptBind_err] at h
    | ok c =>
      rw [hc, exceptBind_ok] at h
      cases c with
      | false =>
        simp only [Bool.false_eq_true, if_false, Except.ok.injEq] at h
        subst h
        exact ⟨rfl, rfl⟩
      | true =>
        simp only [if_true] at h
        cases hs : partialInputScript i with
        | error e => rw [hs] at h; simp [exceptBind_err] at h
        | ok s =>
          rw [hs, exceptBind_ok] at h
          cases hw : partialSerializeWitness i with
          | error e => rw [hw] at h; simp [exceptBind_err] at h
          | ok w =>
            rw [hw, exceptBind_ok] at h
            simp only [Except.ok.injEq] at h
            subst h
            exact ⟨rfl, rfl⟩

theorem combineTxin_ok_shape (s o r : PartialTxInput) (h : s.combineTxin o = .ok r) :
    ∃ s4 : PartialTxInput, (s4.ensureOneUtxo).finalizeTxin = .ok r := by
  simp only [PartialTxInput.combineTxin] at h
  split at h
  · simp at h
  · split at h
    · simp at h
    · split at h
      · simp at h
      · exact ⟨_, h⟩

/-- C8 (counterexample): assigning through the `utxo` setter a complete
transaction whose identifier does not match the input's outpoint raises
a PSBT consistency failure, but — the assignment having happened before
validation — the raising setter leaves the input holding BOTH a
non-witness UTXO and a witness UTXO. -/
theorem utxo_setter_raise_keeps_both :
    (exI8.utxoSet (some (.inl exUtx))).1 = some .psbtConsistency
    ∧ (exI8.utxoSet (some (.inl exUtx))).2.utxo.isSome = true
    ∧ (exI8.utxoSet (some (.inl exUtx))).2.witness_utxo.isSome = true := by decide

/-- C8 (amended): every non-raising UTXO operation preserves
exclusivity — after a `utxo` or `witness_utxo` assignment that returns
without raising, after a successful `combine_with_other_txin`, and after
serializing the PSBT input section, the input never holds both UTXO
forms, and when both become available the witness UTXO is the one
dropped; a `utxo` assignment that raises mid-validation, however, can
leave both set (see the counterexample). -/
theorem utxo_exclusive :
    (∀ (i : PartialTxInput) (t : Option UtxoArg) (r : PartialTxInput),
        ¬(i.utxo.isSome = true ∧ i.witness_utxo.isSome = true) →
        i.utxoSet t = (none, r) →
        ¬(r.utxo.isSome = true ∧ r.witness_utxo.isSome = true))
    ∧ (∀ (i : PartialTxInput) (w : Option TxOutput) (r : PartialTxInput),
        i.witnessUtxoSet w = (none, r) →
        ¬(r.utxo.isSome = true ∧ r.witness_utxo.isSome = true))
    ∧ (∀ s o r : PartialTxInput, s.combineTxin o = .ok r →
        ¬(r.utxo.isSome = true ∧ r.witness_utxo.isSome = true))
    ∧ (∀ i : PartialTxInput, (serializePsbtInputSection i).1 = i.ensureOneUtxo
        ∧ ¬((serializePsbtInputSection i).1.utxo.isSome = true
            ∧ (serializePsbtInputSection i).1.witness_utxo.isSome = true))
    ∧ (∀ i : PartialTxInput, i.utxo.isSome = true → i.witness_utxo.isSome = true →
        i.ensureOneUtxo = { i with witness_utxo := none }) := by
  refine ⟨?_, ?_, ?_, ?_, ?_⟩
  · intro i t r hpre heq
    match t with
    | none =>
      simp only [PartialTxInput.utxoSet, Prod.mk.injEq] at heq
      rw [← heq.2]
      exact hpre
    | some (.inl t) =>
      simp only [PartialTxInput.utxoSet] at heq
      cases hv : PartialTxInput.validateData { i with utxo := some t } with
      | error e => rw [hv] at heq; simp at heq
      | ok u =>
        rw [hv] at heq
        simp only [Prod.mk.injEq] at heq
        rw [← heq.2]
        exact ensureOneUtxo_not_both _
    | some (.inr p) =>
      simp only [PartialTxInput.utxoSet] at heq
      cases hc : p.isComplete with
      | error e => simp only [hc] at heq; simp at heq
      | ok c =>
        cases c with
        | false =>
          simp only [hc, Prod.mk.injEq] at heq
          rw [← heq.2]
          exact hpre
        | true =>
          cases ht : p.toPlainTx with
          | error e => simp only [hc, ht] at heq; simp at heq
          | ok t =>
            simp only [hc, ht] at heq
            cases hv : PartialTxInput.validateData { i with utxo := some t } with
            | error e => simp only [hv] at heq; simp at heq
            | ok u =>
              simp only [hv, Prod.mk.injEq] at heq
              rw [← heq.2]
              exact ensureOneUtxo_not_both _
  · intro i w r heq
    simp only [PartialTxInput.witnessUtxoSet] at heq
    cases hv : PartialTxInput.validateData { i with witness_utxo := w } with
    | error e => rw [hv] at heq; simp at heq
    | ok u =>
      rw [hv] at heq
      simp only [Prod.mk.injEq] at heq
      rw [← heq.2]
      exact ensureOneUtxo_not_both _
  · intro s o r h
    obtain ⟨s4, hfin⟩ := combineTxin_ok_shape s o r h
    obtain ⟨hu, hw⟩ := finalizeTxin_preserves_utxos _ _ hfin
    intro hb
    rw [hu, hw] at hb
    exact ensureOneUtxo_not_both s4 hb
  · intro i
    exact ⟨rfl, ensureOneUtxo_not_both i⟩
  · intro i h1 h2
    simp only [PartialTxInput.ensureOneUtxo, if_pos (And.intro h1 h2)]

/-- C8 (witness): exclusivity applied to the non-raising assignment of
`None` and to the preference rule on an input holding both UTXO
forms. -/
theorem utxo_exclusive_witness :
    (¬(exI9.utxo.isSome = true ∧ exI9.witness_utxo.isSome = true))
    ∧ ({ exI9 with utxo := some exUtx, witness_utxo := some exW9 }
        : PartialTxInput).ensureOneUtxo
        = { exI9 with utxo := some exUtx, witness_utxo := none } :=
  ⟨utxo_exclusive.1 exI9 none exI9 (by decide) (by decide),
   utxo_exclusive.2.2.2.2 { exI9 with utxo := some exUtx, witness_utxo := some exW9 }
     (by decide) (by decide)⟩

/-- C5 (counterexample): with a configured burn address, a transaction
paying value 100 to the burn address and creating an asset in an output
of value 5 is re-ordered by the asset overlay after the BIP-69 sort:
the burn output is moved first although its value is larger, so the
output sequence is NOT non-decreasing by (value, script). -/
theorem bip69_overlay_breaks_order :
    exTx5.for_swap = false
    ∧ ((exTx5.BIP69_sort [exBurnAddr]).outputs.map (fun o => o.core.value)) = [100, 5]
    ∧ ¬(exTx5.BIP69_sort [exBurnAddr]).outputs.Pairwise
        (fun a b => outputLe a b = true) := by
  refine ⟨rfl, by decide, by decide⟩

/-- C5 (amended): `BIP69_sort` leaves a `for_swap` transaction entirely
unchanged; otherwise the inputs end up non-decreasing by
(prevout txid, output index), and the outputs end up non-decreasing by
(value, scriptpubkey) provided the asset overlay does not apply — that
is, when no output pays a configured burn address, or no output creates
an asset (name not ending in the ownership mark). -/
theorem bip69_sort_ordering :
    ∀ (burnAddrs : List Address) (tx : PartialTransaction),
      (tx.for_swap = true → tx.BIP69_sort burnAddrs = tx)
      ∧ (tx.for_swap = false →
          (tx.BIP69_sort burnAddrs).inputs.Pairwise (fun a b => inputLe a b = true))
      ∧ (tx.for_swap = false →
          ((∀ o ∈ tx.outputs, ∀ a, o.core.address = some a → a ∉ burnAddrs)
            ∨ (∀ o ∈ tx.outputs, ∀ s, o.core.asset = some s → s ≠ "" → s.back = '!')) →
          (tx.BIP69_sort burnAddrs).outputs.Pairwise (fun a b => outputLe a b = true)) := by
  intro burnAddrs tx
  refine ⟨?_, ?_, ?_⟩
  · intro h
    simp only [PartialTransaction.BIP69_sort, h, if_true]
  · intro h
    have hres : (tx.BIP69_sort burnAddrs).inputs
        = List.insertionSort (fun a b => inputLe a b = true) tx.inputs := by
      simp only [PartialTransaction.BIP69_sort, h, Bool.false_eq_true, if_false]
    rw [hres]
    exact List.sorted_insertionSort _ _
  · intro h hyp
    have hmem : ∀ o ∈ List.insertionSort (fun a b => outputLe a b = true) tx.outputs,
        o ∈ tx.outputs := by
      intro o ho
      exact (List.perm_insertionSort _ tx.outputs).mem_iff.mp ho
    have hnone :
        ((List.insertionSort (fun a b => outputLe a b = true) tx.outputs).foldl
          (overlayStep burnAddrs) {}).burn = none
        ∨ ((List.insertionSort (fun a b => outputLe a b = true) tx.outputs).foldl
            (overlayStep burnAddrs) {}).assetCreate = none := by
      rcases hyp with hA | hB
      · left
        exact overlay_fold_burn_none burnAddrs _ {}
          (fun o ho a ha => hA o (hmem o ho) a ha)
      · right
        exact overlay_fold_create_none burnAddrs _ {}
          (fun o ho s hs h1 => hB o (hmem o ho) s hs h1)
    have hres : (tx.BIP69_sort burnAddrs).outputs
        = List.insertionSort (fun a b => outputLe a b = true) tx.outputs := by
      simp only [PartialTransaction.BIP69_sort, h, Bool.false_eq_true, if_false]
      rcases hnone with hb | hc
      · rw [hb]
      · rw [hc]
        cases hb2 : ((List.insertionSort (fun a b => outputLe a b = true) tx.outputs).foldl
            (overlayStep burnAddrs) {}).burn <;> rfl
    rw [hres]
    exact List.sorted_insertionSort _ _

/-- C5 (witness): the amended claim applied to the concrete transaction
`exCtx2` with an empty burn-address configuration (no output can pay a
burn address, so the overlay does not apply). -/
theorem bip69_sort_ordering_witness :
    (exCtx2.BIP69_sort []).inputs.Pairwise (fun a b => inputLe a b = true)
    ∧ (exCtx2.BIP69_sort []).outputs.Pairwise (fun a b => outputLe a b = true) :=
  ⟨(bip69_sort_ordering [] exCtx2).2.1 rfl,
   (bip69_sort_ordering [] exCtx2).2.2 rfl (Or.inl (by decide))⟩

/-- C10: `TxOutput.__eq__` compares exactly the script and the value and
ignores the asset field: outputs with equal scripts and values are equal
whatever their asset names. -/
theorem txoutput_eq_ignores_asset :
    (∀ a b : TxOutput,
      txOutputEq a b = true ↔ (a.scriptpubkey = b.scriptpubkey ∧ a.value = b.value))
    ∧ (∀ (s : List Nat) (v : Nat) (a1 a2 : Option String),
        txOutputEq ⟨s, v, a1⟩ ⟨s, v, a2⟩ = true) := by
  constructor
  · intro a b
    simp [txOutputEq]
  · intro s v a1 a2
    simp [txOutputEq]

/-- C10 (witness): equality of two concrete outputs that differ only in
their asset names. -/
theorem txoutput_eq_ignores_asset_witness :
    txOutputEq ⟨[81], 7, some "A"⟩ ⟨[81], 7, some "B"⟩ = true :=
  txoutput_eq_ignores_asset.2 [81] 7 (some "A") (some "B")

end ElectrumRvn
